import Mathlib

/-!
Shallow embedding of the SpreadLov real-time presence and messaging
coordinator (server side: `server/storage.ts`, `server/pg-storage.ts`,
`server/routes.ts`, `shared/schema.ts`).

JavaScript `Map` objects are modelled as association lists with unique
keys (`mapGet` / `mapSet` / `mapDelete` mirror `Map.get` / `Map.set` /
`Map.delete`, preserving insertion order).  JavaScript `Set` objects are
modelled as duplicate-free lists in insertion order (`setAdd`, `List.erase`).
`randomUUID()` is modelled by drawing identifiers from a counter threaded
through the server state; `new Date()` by a logical clock.  Frames written
to sockets are recorded in an event list instead of performing I/O.
-/

set_option autoImplicit false

namespace SpreadLov

universe u v

/-- Model of `Map.prototype.get`: first entry with the given key. -/
def mapGet {κ : Type u} {α : Type v} [DecidableEq κ] (k : κ) : List (κ × α) → Option α
  | [] => none
  | (k1, v) :: rest => if k1 = k then some v else mapGet k rest

/-- Model of `Map.prototype.set`: replace the entry with the given key in
place, or append a new entry at the end (insertion order). -/
def mapSet {κ : Type u} {α : Type v} [DecidableEq κ] (k : κ) (v : α) : List (κ × α) → List (κ × α)
  | [] => [(k, v)]
  | (k1, v1) :: rest => if k1 = k then (k, v) :: rest else (k1, v1) :: mapSet k v rest

/-- Model of `Map.prototype.delete`: remove the entry with the given key. -/
def mapDelete {κ : Type u} {α : Type v} [DecidableEq κ] (k : κ) : List (κ × α) → List (κ × α)
  | [] => []
  | (k1, v1) :: rest => if k1 = k then rest else (k1, v1) :: mapDelete k rest

/-- The keys of a modelled `Map`. -/
def mapKeys {κ : Type u} {α : Type v} (l : List (κ × α)) : List κ := l.map Prod.fst

/-- A modelled `Map` is well formed when its keys are pairwise distinct. -/
def NodupKeys {κ : Type u} {α : Type v} (l : List (κ × α)) : Prop := (mapKeys l).Nodup

/-- Model of `Set.prototype.add`: append if not already present. -/
def setAdd {α : Type u} [DecidableEq α] (x : α) (l : List α) : List α :=
  if x ∈ l then l else l ++ [x]

section MapLemmas

variable {κ : Type u} {α : Type v} [DecidableEq κ]

theorem mapGet_mapSet_same (k : κ) (v : α) (l : List (κ × α)) :
    mapGet k (mapSet k v l) = some v := by
  induction l with
  | nil => simp [mapGet, mapSet]
  | cons p rest ih =>
    obtain ⟨k1, v1⟩ := p
    by_cases h : k1 = k <;> simp [mapGet, mapSet, h, ih]

theorem mapGet_mapSet_other {k k2 : κ} (hne : k2 ≠ k) (v : α) (l : List (κ × α)) :
    mapGet k2 (mapSet k v l) = mapGet k2 l := by
  have hne2 : ¬(k = k2) := fun h => hne h.symm
  induction l with
  | nil => simp [mapGet, mapSet, hne2]
  | cons p rest ih =>
    obtain ⟨k1, v1⟩ := p
    by_cases h : k1 = k
    · subst h
      simp [mapGet, mapSet, hne2]
    · by_cases h2 : k1 = k2 <;> simp [mapGet, mapSet, h, h2, hne, ih]

theorem mapGet_mapDelete_other {k k2 : κ} (hne : k2 ≠ k) (l : List (κ × α)) :
    mapGet k2 (mapDelete k l) = mapGet k2 l := by
  have hne2 : ¬(k = k2) := fun h => hne h.symm
  induction l with
  | nil => simp [mapGet, mapDelete]
  | cons p rest ih =>
    obtain ⟨k1, v1⟩ := p
    by_cases h : k1 = k
    · subst h
      simp [mapGet, mapDelete, hne2]
    · by_cases h2 : k1 = k2 <;> simp [mapGet, mapDelete, h, h2, hne, ih]

theorem mapGet_eq_none_of_not_mem_keys {k : κ} {l : List (κ × α)}
    (h : k ∉ mapKeys l) : mapGet k l = none := by
  induction l with
  | nil => simp [mapGet]
  | cons p rest ih =>
    obtain ⟨k1, v1⟩ := p
    simp only [mapKeys, List.map_cons, List.mem_cons] at h
    push_neg at h
    have hk : ¬(k1 = k) := fun he => h.1 he.symm
    simp only [mapGet, if_neg hk]
    exact ih h.2

theorem mapGet_mapDelete_same {k : κ} {l : List (κ × α)} (h : NodupKeys l) :
    mapGet k (mapDelete k l) = none := by
  induction l with
  | nil => simp [mapGet, mapDelete]
  | cons p rest ih =>
    obtain ⟨k1, v1⟩ := p
    simp only [NodupKeys, mapKeys, List.map_cons, List.nodup_cons] at h
    by_cases hk : k1 = k
    · subst hk
      simp only [mapDelete, if_pos rfl]
      exact mapGet_eq_none_of_not_mem_keys h.1
    · simp only [mapDelete, if_neg hk, mapGet, if_neg hk]
      exact ih h.2

theorem mapDelete_of_not_mem {k : κ} {l : List (κ × α)} (h : mapGet k l = none) :
    mapDelete k l = l := by
  induction l with
  | nil => simp [mapDelete]
  | cons p rest ih =>
    obtain ⟨k1, v1⟩ := p
    by_cases hk : k1 = k
    · simp [mapGet, hk] at h
    · simp only [mapGet, if_neg hk] at h
      simp [mapDelete, hk, ih h]

theorem mapSet_fresh {k : κ} (v : α) {l : List (κ × α)} (h : mapGet k l = none) :
    mapSet k v l = l ++ [(k, v)] := by
  induction l with
  | nil => simp [mapSet]
  | cons p rest ih =>
    obtain ⟨k1, v1⟩ := p
    by_cases hk : k1 = k
    · simp [mapGet, hk] at h
    · simp only [mapGet, if_neg hk] at h
      simp [mapSet, hk, ih h]

theorem mapKeys_mapSet_mem {k : κ} (v : α) {l : List (κ × α)}
    (h : mapGet k l ≠ none) : mapKeys (mapSet k v l) = mapKeys l := by
  induction l with
  | nil => simp [mapGet] at h
  | cons p rest ih =>
    obtain ⟨k1, v1⟩ := p
    by_cases hk : k1 = k
    · simp [mapKeys, mapSet, hk]
    · simp only [mapGet, if_neg hk] at h
      simp [mapKeys, mapSet, hk] at ih ⊢
      exact ih h

theorem nodupKeys_mapSet {k : κ} (v : α) {l : List (κ × α)} (h : NodupKeys l) :
    NodupKeys (mapSet k v l) := by
  induction l with
  | nil => simp [NodupKeys, mapKeys, mapSet]
  | cons p rest ih =>
    obtain ⟨k1, v1⟩ := p
    simp only [NodupKeys, mapKeys, List.map_cons, List.nodup_cons] at h
    by_cases hk : k1 = k
    · subst hk
      simpa [NodupKeys, mapKeys, mapSet, List.nodup_cons] using h
    · have htail := ih h.2
      by_cases hmem : mapGet k rest = none
      · simp only [mapSet, if_neg hk]
        simp only [NodupKeys, mapKeys, List.map_cons, List.nodup_cons]
        refine ⟨?_, htail⟩
        rw [mapSet_fresh v hmem]
        intro hcon
        simp only [List.map_append, List.mem_append] at hcon
        rcases hcon with hcon | hcon
        · exact h.1 hcon
        · simp at hcon
          exact hk hcon
      · simp only [mapSet, if_neg hk]
        simp only [NodupKeys, mapKeys, List.map_cons, List.nodup_cons]
        refine ⟨?_, htail⟩
        rw [show (mapSet k v rest).map Prod.fst = mapKeys (mapSet k v rest) from rfl,
          mapKeys_mapSet_mem v hmem]
        exact h.1

theorem mapKeys_mapDelete_subset (k : κ) (l : List (κ × α)) :
    mapKeys (mapDelete k l) ⊆ mapKeys l := by
  induction l with
  | nil => simp [mapDelete]
  | cons q rest ih =>
    obtain ⟨k2, v2⟩ := q
    by_cases h2 : k2 = k
    · simp only [mapDelete, if_pos h2, mapKeys, List.map_cons]
      exact List.subset_cons_self _ _
    · simp only [mapDelete, if_neg h2, mapKeys, List.map_cons]
      exact List.cons_subset_cons _ ih

theorem nodupKeys_mapDelete (k : κ) {l : List (κ × α)} (h : NodupKeys l) :
    NodupKeys (mapDelete k l) := by
  induction l with
  | nil => simp [NodupKeys, mapKeys, mapDelete]
  | cons p rest ih =>
    obtain ⟨k1, v1⟩ := p
    simp only [NodupKeys, mapKeys, List.map_cons, List.nodup_cons] at h
    by_cases hk : k1 = k
    · simpa [mapDelete, hk, NodupKeys] using h.2
    · have htail := ih h.2
      simp only [mapDelete, if_neg hk, NodupKeys, mapKeys, List.map_cons, List.nodup_cons]
      refine ⟨?_, htail⟩
      intro hcon
      apply h.1
      exact mapKeys_mapDelete_subset k rest hcon

theorem mapGet_of_mem {l : List (κ × α)} {p : κ × α} (hn : NodupKeys l) (hp : p ∈ l) :
    mapGet p.1 l = some p.2 := by
  induction l with
  | nil => simp at hp
  | cons q rest ih =>
    obtain ⟨k1, v1⟩ := q
    simp only [NodupKeys, mapKeys, List.map_cons, List.nodup_cons] at hn
    rcases List.mem_cons.mp hp with hp2 | hp2
    · subst hp2
      simp [mapGet]
    · have hne : k1 ≠ p.1 := by
        intro he
        exact hn.1 (he ▸ List.mem_map_of_mem Prod.fst hp2)
      simp [mapGet, hne, ih hn.2 hp2]

end MapLemmas

/-! ## Data model (`shared/schema.ts`)

User identifiers are opaque strings.  Identifiers generated by
`randomUUID()` (conversations, messages, notifications) are modelled as
natural numbers drawn from a counter; timestamps as a logical clock. -/

/-- A row of the `users` table. -/
structure User where
  id : String
  username : String
  password : String
  email : String
  firstName : String
  lastName : String
  gender : String
  profilePhoto : Option String
  age : Nat
  location : Option String
  bio : Option String
  photos : Option (List String)
  isOnline : Bool
  lastSeen : Nat
  createdAt : Nat
  filterGender : Option String
  filterLocation : Option String
  filterAgeMin : Option Nat
  filterAgeMax : Option Nat
deriving Repr, DecidableEq

/-- A row of the `conversations` table. -/
structure Conversation where
  id : Nat
  participant1Id : String
  participant2Id : String
  lastMessageAt : Nat
  createdAt : Nat
deriving Repr, DecidableEq

/-- A row of the `messages` table. -/
structure Message where
  id : Nat
  conversationId : Nat
  senderId : String
  content : Option String
  imageUrl : Option String
  timestamp : Nat
deriving Repr, DecidableEq

/-- A row of the `notifications` table; `type` is
`"profile_view"` or `"message_received"`. -/
structure Notification where
  id : Nat
  userId : String
  type : String
  fromUserId : String
  conversationId : Option Nat
  isRead : Bool
  data : Option String
  createdAt : Nat
deriving Repr, DecidableEq

/-- The safe public projection of a user, exactly the fields picked by
`toPublicUser` in `server/routes.ts` (no password, no email, no
filter-preference fields). -/
structure PublicUser where
  id : String
  username : String
  firstName : String
  lastName : String
  gender : String
  age : Nat
  location : Option String
  bio : Option String
  profilePhoto : Option String
  photos : Option (List String)
  isOnline : Bool
  lastSeen : Nat
deriving Repr, DecidableEq

/-- `toPublicUser` from `server/routes.ts`. -/
def toPublicUser (u : User) : PublicUser :=
  { id := u.id
    username := u.username
    firstName := u.firstName
    lastName := u.lastName
    gender := u.gender
    age := u.age
    location := u.location
    bio := u.bio
    profilePhoto := u.profilePhoto
    photos := u.photos
    isOnline := u.isOnline
    lastSeen := u.lastSeen }

/-- JavaScript `x || null` on an optional string: the empty string is
falsy and collapses to `null`. -/
def jsOrNull (o : Option String) : Option String :=
  match o with
  | some s => if s = "" then none else some s
  | none => none

/-- Argument record of `storage.createMessage` (`InsertMessage`). -/
structure InsertMessage where
  conversationId : Nat
  senderId : String
  content : Option String
  imageUrl : Option String
deriving Repr, DecidableEq

/-- Argument record of `storage.createNotification` (`InsertNotification`). -/
structure InsertNotification where
  userId : String
  type : String
  fromUserId : String
  conversationId : Option Nat
  data : Option String
deriving Repr, DecidableEq

/-! ## `MemStorage` (`server/storage.ts`)

Each `Map` field is an association list with unique keys.  Operations
that call `randomUUID()` / `new Date()` take the fresh identifier and
the current time as explicit arguments. -/

/-- The in-memory storage engine: four `Map`s keyed by record id. -/
structure MemStorage where
  users : List (String × User)
  conversations : List (Nat × Conversation)
  messages : List (Nat × Message)
  notifications : List (Nat × Notification)
deriving Repr, DecidableEq

namespace MemStorage

/-- `MemStorage.getUser`. -/
def getUser (st : MemStorage) (id : String) : Option User :=
  mapGet id st.users

/-- `MemStorage.updateUser`: merge the updates into the stored record
(updates modelled as a transformer on the record, since `Partial<User>`
spreads field-by-field). -/
def updateUser (st : MemStorage) (id : String) (updates : User → User) :
    MemStorage × Option User :=
  match mapGet id st.users with
  | none => (st, none)
  | some u =>
      let updated := updates u
      ({ st with users := mapSet id updated st.users }, some updated)

/-- `MemStorage.getConversation`: first conversation whose unordered
participant pair matches. -/
def getConversation (st : MemStorage) (user1Id user2Id : String) : Option Conversation :=
  (st.conversations.map Prod.snd).find? fun conv =>
    (conv.participant1Id == user1Id && conv.participant2Id == user2Id) ||
    (conv.participant1Id == user2Id && conv.participant2Id == user1Id)

/-- `MemStorage.createConversation`. -/
def createConversation (st : MemStorage) (fresh now : Nat)
    (participant1Id participant2Id : String) : MemStorage × Conversation :=
  let conversation : Conversation :=
    { id := fresh
      participant1Id := participant1Id
      participant2Id := participant2Id
      lastMessageAt := now
      createdAt := now }
  ({ st with conversations := mapSet fresh conversation st.conversations }, conversation)

/-- `MemStorage.createMessage`: store the message, then refresh the
conversation's `lastMessageAt`. -/
def createMessage (st : MemStorage) (fresh now : Nat) (insertMessage : InsertMessage) :
    MemStorage × Message :=
  let message : Message :=
    { id := fresh
      conversationId := insertMessage.conversationId
      senderId := insertMessage.senderId
      content := jsOrNull insertMessage.content
      imageUrl := jsOrNull insertMessage.imageUrl
      timestamp := now }
  let st1 := { st with messages := mapSet fresh message st.messages }
  let st2 :=
    match mapGet insertMessage.conversationId st1.conversations with
    | some conversation =>
        let refreshed := { conversation with lastMessageAt := now }
        let convs := mapSet insertMessage.conversationId refreshed st1.conversations
        { st1 with conversations := convs }
    | none => st1
  (st2, message)

/-- `MemStorage.getMessages`: messages of a conversation sorted by
timestamp. -/
def getMessages (st : MemStorage) (conversationId : Nat) : List Message :=
  ((st.messages.map Prod.snd).filter fun m => m.conversationId == conversationId).mergeSort
    fun a b => a.timestamp ≤ b.timestamp

/-- `MemStorage.getAllUsers`. -/
def getAllUsers (st : MemStorage) : List User :=
  st.users.map Prod.snd

/-- `MemStorage.getOnlineUsers`. -/
def getOnlineUsers (st : MemStorage) : List User :=
  (st.users.map Prod.snd).filter fun u => u.isOnline

/-- `MemStorage.setUserOnlineStatus`. -/
def setUserOnlineStatus (st : MemStorage) (userId : String) (isOnline : Bool) (now : Nat) :
    MemStorage :=
  match mapGet userId st.users with
  | some u =>
      { st with users := mapSet userId { u with isOnline := isOnline, lastSeen := now } st.users }
  | none => st

/-- `MemStorage.createNotification`. -/
def createNotification (st : MemStorage) (fresh now : Nat)
    (insertNotification : InsertNotification) : MemStorage × Notification :=
  let notification : Notification :=
    { id := fresh
      userId := insertNotification.userId
      type := insertNotification.type
      fromUserId := insertNotification.fromUserId
      conversationId := insertNotification.conversationId
      isRead := false
      data := insertNotification.data
      createdAt := now }
  ({ st with notifications := mapSet fresh notification st.notifications }, notification)

/-- `MemStorage.markNotificationAsRead`. -/
def markNotificationAsRead (st : MemStorage) (notificationId : Nat) : MemStorage :=
  match mapGet notificationId st.notifications with
  | some n =>
      { st with notifications := mapSet notificationId { n with isRead := true } st.notifications }
  | none => st

/-- `MemStorage.markAllNotificationsAsRead`: iterate the unread
notifications of the user and `Map.set` each back with `isRead := true`. -/
def markAllNotificationsAsRead (st : MemStorage) (userId : String) : MemStorage :=
  let toMark := (st.notifications.map Prod.snd).filter fun n => n.userId == userId && !n.isRead
  { st with notifications :=
      toMark.foldl (fun acc n => mapSet n.id { n with isRead := true } acc) st.notifications }

/-- `MemStorage.deleteNotification`. -/
def deleteNotification (st : MemStorage) (notificationId : Nat) : MemStorage :=
  { st with notifications := mapDelete notificationId st.notifications }

/-- `MemStorage.getUnreadNotificationCount`. -/
def getUnreadNotificationCount (st : MemStorage) (userId : String) : Nat :=
  ((st.notifications.map Prod.snd).filter fun n => n.userId == userId && !n.isRead).length

/-- `MemStorage.getUserNotifications`: the user's notifications sorted
newest first, each paired with its `fromUser` record. -/
def getUserNotifications (st : MemStorage) (userId : String) :
    List (Notification × Option User) :=
  (((st.notifications.map Prod.snd).filter fun n => n.userId == userId).mergeSort
      fun a b => b.createdAt ≤ a.createdAt).map
    fun n => (n, mapGet n.fromUserId st.users)

end MemStorage

/-! ## WebSocket layer (`server/routes.ts`)

A socket handle carries an identity (so frames can be attributed to a
concrete socket) and its `readyState` (`WebSocket.OPEN = 1`).  Frames
written with `ws.send(JSON.stringify(...))` are recorded in an event
list tagged with the receiving socket's identity. -/

/-- A live socket handle: identity plus `readyState`. -/
structure Conn where
  connId : Nat
  readyState : Nat
deriving Repr, DecidableEq

/-- `WebSocket.OPEN`. -/
def WS_OPEN : Nat := 1

/-- Outbound wire frames (core → client). -/
inductive Frame where
  | newMessage (message : Message) (sender : Option PublicUser)
  | messageConfirmed (message : Message)
  | newNotification (id : Nat) (type : String) (fromUserId : String)
      (fromUserName : String) (fromUserPhoto : Option String)
      (text : String) (createdAt : Nat)
  | userOnline (userId : String)
  | userOffline (userId : String)
  | userTyping (userId : String) (isTyping : Bool)
deriving Repr, DecidableEq

/-- A frame written to a concrete socket. -/
structure Sent where
  target : Nat
  frame : Frame
deriving Repr, DecidableEq

/-- The state owned by `registerRoutes`: the storage engine, the
connection registry `connectedUsers`, the focus tracker
`activeChatWindows`, plus the id counter and logical clock that model
`randomUUID()` and `new Date()`. -/
structure ServerState where
  store : MemStorage
  connectedUsers : List (String × Conn)
  activeChatWindows : List (String × List String)
  nextId : Nat
  now : Nat
deriving Repr, DecidableEq

/-- `broadcastToAll`: write the frame to every registry entry whose
socket is `OPEN`. -/
def broadcastToAll (s : ServerState) (frame : Frame) : List Sent :=
  (s.connectedUsers.filter fun p => p.2.readyState == WS_OPEN).map
    fun p => { target := p.2.connId, frame := frame }

/-- `sendToUser`: deliver to the user's registered socket when present
and `OPEN`, returning whether delivery happened. -/
def sendToUser (s : ServerState) (userId : String) (frame : Frame) : Bool × List Sent :=
  match mapGet userId s.connectedUsers with
  | some userConnection =>
      if userConnection.readyState == WS_OPEN then
        (true, [{ target := userConnection.connId, frame := frame }])
      else (false, [])
  | none => (false, [])

/-- The `senderHasChatOpen` / `receiverHasChatOpen` test of the
suppression policy: `activeChatWindows.has(u) && activeChatWindows.get(u)!.has(peer)`. -/
def isFocused (s : ServerState) (userId peerId : String) : Bool :=
  match mapGet userId s.activeChatWindows with
  | some windowSet => windowSet.contains peerId
  | none => false

/-- The `openChatWindow` case of the message handler: create the user's
window set if absent, then add the peer. -/
def handleOpenChatWindow (s : ServerState) (userId : Option String)
    (otherUserId : String) : ServerState :=
  match userId with
  | none => s
  | some uid =>
      let current := (mapGet uid s.activeChatWindows).getD []
      { s with activeChatWindows := mapSet uid (setAdd otherUserId current) s.activeChatWindows }

/-- The `closeChatWindow` case of the message handler: remove the peer
from the user's window set, deleting the entry once the set is empty. -/
def handleCloseChatWindow (s : ServerState) (userId : Option String)
    (otherUserId : String) : ServerState :=
  match userId with
  | none => s
  | some uid =>
      match mapGet uid s.activeChatWindows with
      | none => s
      | some windowSet =>
          let remaining := windowSet.erase otherUserId
          if remaining.length = 0 then
            { s with activeChatWindows := mapDelete uid s.activeChatWindows }
          else
            { s with activeChatWindows := mapSet uid remaining s.activeChatWindows }

/-- The `sendMessage` case of the message handler: get-or-create the
conversation, persist the message, deliver `newMessage` to the receiver
if reachable, create and deliver a `message_received` notification
unless both parties are actively chatting, and confirm to the sender on
the handling socket unconditionally. -/
def handleSendMessage (s : ServerState) (userId : Option String) (ws : Conn)
    (receiverId : String) (content imageUrl : Option String) : ServerState × List Sent :=
  match userId with
  | none => (s, [])
  | some uid =>
      -- get or create conversation
      let convStep : ServerState × Conversation :=
        match MemStorage.getConversation s.store uid receiverId with
        | some conversation => (s, conversation)
        | none =>
            let created := MemStorage.createConversation s.store s.nextId s.now uid receiverId
            ({ s with store := created.1, nextId := s.nextId + 1 }, created.2)
      let s1 := convStep.1
      let conversation := convStep.2
      -- create message
      let msgStep := MemStorage.createMessage s1.store s1.nextId s1.now
        { conversationId := conversation.id, senderId := uid
          content := content, imageUrl := imageUrl }
      let s2 : ServerState := { s1 with store := msgStep.1, nextId := s1.nextId + 1 }
      let newMessage := msgStep.2
      -- send to receiver if online
      let receiverConnection := mapGet receiverId s2.connectedUsers
      let deliverEvents : List Sent :=
        match receiverConnection with
        | some rc =>
            if rc.readyState == WS_OPEN then
              let senderUser := MemStorage.getUser s2.store uid
              [{ target := rc.connId, frame := Frame.newMessage newMessage (senderUser.map toPublicUser) }]
            else []
        | none => []
      -- suppression check: both users have the chat window open
      let senderHasChatOpen := isFocused s2 uid receiverId
      let receiverHasChatOpen := isFocused s2 receiverId uid
      let bothActivelyChatting := senderHasChatOpen && receiverHasChatOpen
      let notifStep : ServerState × List Sent :=
        if bothActivelyChatting then (s2, [])
        else
          let created := MemStorage.createNotification s2.store s2.nextId s2.now
            { userId := receiverId, type := "message_received"
              fromUserId := uid, conversationId := some conversation.id, data := none }
          let s3 : ServerState := { s2 with store := created.1, nextId := s2.nextId + 1 }
          let notification := created.2
          let notifEvents : List Sent :=
            match MemStorage.getUser s3.store uid, receiverConnection with
            | some senderUser, some rc =>
                if rc.readyState == WS_OPEN then
                  [{ target := rc.connId
                     frame := Frame.newNotification notification.id "message_received" uid
                       senderUser.firstName senderUser.profilePhoto
                       (senderUser.firstName ++ " sent you a message.") notification.createdAt }]
                else []
            | _, _ => []
          (s3, notifEvents)
      let s4 := notifStep.1
      -- confirm to sender (direct ws.send on the handling socket)
      (s4, deliverEvents ++ notifStep.2 ++ [{ target := ws.connId, frame := Frame.messageConfirmed newMessage }])

/-- The `typing` case of the message handler. -/
def handleTyping (s : ServerState) (userId : Option String)
    (receiverId : String) (isTyping : Bool) : ServerState × List Sent :=
  match userId with
  | none => (s, [])
  | some uid =>
      match mapGet receiverId s.connectedUsers with
      | some rc =>
          if rc.readyState == WS_OPEN then
            (s, [{ target := rc.connId, frame := Frame.userTyping uid isTyping }])
          else (s, [])
      | none => (s, [])

/-- Strip the `s:` signature framing from the session cookie value:
`sessionId.slice(2).split(".")[0]`. -/
def stripSessionCookie (sessionId : String) : String :=
  if sessionId.startsWith "s:" then ((sessionId.drop 2).splitOn ".").headD ""
  else sessionId

/-- Result of the `wss.on(connection)` handler: the new state, the
close code and reason if the socket was closed during authentication,
the final value of the per-connection `userId` closure variable, and
the frames written. -/
structure ConnectResult where
  state : ServerState
  closed : Option (Nat × String)
  userId : Option String
  events : List Sent
deriving Repr, DecidableEq

/-- The `wss.on(connection)` authentication block: verify the session
cookie, resolve the user, register the connection, persist the online
flag and broadcast `userOnline`; close with code 1008 and no state
change when the cookie or session is missing.  The session store is a
map from session id to the authenticated principal (`passport.user`). -/
def handleConnection (s : ServerState) (ws : Conn)
    (cookies : List (String × String)) (sessionStore : String → Option String) :
    ConnectResult :=
  match mapGet "connect.sid" cookies with
  | none => { state := s, closed := some (1008, "Authentication required"), userId := none, events := [] }
  | some sessionId =>
      let actualSessionId := stripSessionCookie sessionId
      match sessionStore actualSessionId with
      | none => { state := s, closed := some (1008, "Authentication required"), userId := none, events := [] }
      | some authenticatedUserId =>
          -- the closure variable userId is assigned before the user lookup
          match MemStorage.getUser s.store authenticatedUserId with
          | none =>
              { state := s, closed := some (1008, "User not found")
                userId := some authenticatedUserId, events := [] }
          | some _ =>
              let s1 : ServerState :=
                { s with connectedUsers := mapSet authenticatedUserId ws s.connectedUsers }
              let s2 : ServerState :=
                { s1 with store := MemStorage.setUserOnlineStatus s1.store authenticatedUserId true s1.now }
              { state := s2, closed := none, userId := some authenticatedUserId
                events := broadcastToAll s2 (Frame.userOnline authenticatedUserId) }

/-- The `ws.on(close)` handler: keyed on the connection's `userId`
closure variable, not on registry membership. -/
def handleClose (s : ServerState) (userId : Option String) : ServerState × List Sent :=
  match userId with
  | none => (s, [])
  | some uid =>
      let s1 : ServerState := { s with connectedUsers := mapDelete uid s.connectedUsers }
      let s2 : ServerState := { s1 with store := MemStorage.setUserOnlineStatus s1.store uid false s1.now }
      let s3 : ServerState := { s2 with activeChatWindows := mapDelete uid s2.activeChatWindows }
      (s3, broadcastToAll s3 (Frame.userOffline uid))

/-! ## HTTP routes returning user objects (`server/routes.ts`)

Query parameters are modelled post-parsing: an age bound is `none` when
the parameter is absent or `parseInt` failed. -/

/-- Case-insensitive JavaScript `String.prototype.includes`. -/
def strIncludesLower (hay needle : String) : Bool :=
  decide ((needle.toLower).data <:+: (hay.toLower).data)

/-- The discovery filters shared by `GET /api/users` and
`GET /api/users/online`. -/
def applyDiscoveryFilters (selfId : String) (gender location : Option String)
    (ageMin ageMax : Option Int) (users0 : List User) : List User :=
  let users1 := users0.filter fun u => u.id ≠ selfId
  let users2 :=
    match gender with
    | some g => if g ≠ "" then users1.filter (fun u => u.gender == g) else users1
    | none => users1
  let users3 :=
    match location with
    | some loc =>
        if loc ≠ "" then
          users2.filter (fun u => match u.location with
            | some uloc => strIncludesLower uloc loc
            | none => false)
        else users2
    | none => users2
  let users4 :=
    match ageMin with
    | some minAge => if 18 ≤ minAge then users3.filter (fun u => minAge ≤ (u.age : Int)) else users3
    | none => users3
  match ageMax with
  | some maxAge => if maxAge ≤ 99 then users4.filter (fun u => (u.age : Int) ≤ maxAge) else users4
  | none => users4

/-- `GET /api/users`: all users except the requester, filtered, mapped
through `toPublicUser`. -/
def apiUsers (st : MemStorage) (selfId : String) (gender location : Option String)
    (ageMin ageMax : Option Int) : List PublicUser :=
  (applyDiscoveryFilters selfId gender location ageMin ageMax
    (MemStorage.getAllUsers st)).map toPublicUser

/-- `GET /api/users/online`: online users except the requester,
filtered, mapped through `toPublicUser`. -/
def apiUsersOnline (st : MemStorage) (selfId : String) (gender location : Option String)
    (ageMin ageMax : Option Int) : List PublicUser :=
  (applyDiscoveryFilters selfId gender location ageMin ageMax
    (MemStorage.getOnlineUsers st)).map toPublicUser

/-- `GET /api/users/:userId`: reject self-access, look the user up,
persist a `profile_view` notification, push a `newNotification` frame to
the viewed user if reachable, and return the public profile. -/
def apiUserProfile (s : ServerState) (selfId targetUserId : String) :
    ServerState × Option PublicUser × List Sent :=
  if targetUserId = selfId then (s, none, [])
  else
    match MemStorage.getUser s.store targetUserId with
    | none => (s, none, [])
    | some user =>
        let created := MemStorage.createNotification s.store s.nextId s.now
          { userId := targetUserId, type := "profile_view"
            fromUserId := selfId, conversationId := none, data := none }
        let s1 : ServerState := { s with store := created.1, nextId := s.nextId + 1 }
        let notification := created.2
        let events :=
          match MemStorage.getUser s1.store selfId with
          | some fromUser =>
              (sendToUser s1 targetUserId
                (Frame.newNotification notification.id "profile_view" selfId
                  fromUser.firstName fromUser.profilePhoto
                  (fromUser.firstName ++ " viewed your profile.") notification.createdAt)).2
          | none => []
        (s1, some (toPublicUser user), events)

/-- `PATCH /api/profile`: apply the updates spread (with `id` and
`password` deleted from the update object first), return the public
projection. -/
def apiProfilePatch (st : MemStorage) (selfId : String) (updates : User → User) :
    MemStorage × Option PublicUser :=
  let guarded : User → User := fun u =>
    { updates u with id := u.id, password := u.password }
  let r := MemStorage.updateUser st selfId guarded
  (r.1, r.2.map toPublicUser)

/-- `POST /api/upload/profile`: store the uploaded file's URL as the
profile photo and return it with the public projection of the updated
user (`user: updatedUser ? toPublicUser(updatedUser) : null`). -/
def apiUploadProfile (st : MemStorage) (selfId : String) (filename : String) :
    MemStorage × String × Option PublicUser :=
  let profilePhotoUrl := "/uploads/" ++ filename
  let r := MemStorage.updateUser st selfId
    (fun u => { u with profilePhoto := some profilePhotoUrl })
  (r.1, profilePhotoUrl, r.2.map toPublicUser)

/-- `POST /api/upload/photos`: append the uploaded files to the user's
gallery (at most 5 photos in total) and return the new gallery, the new
URLs and the public projection of the updated user; `none` models the
error responses (no files, user not found, limit exceeded), which carry
no user object. -/
def apiUploadPhotos (st : MemStorage) (selfId : String) (filenames : List String) :
    MemStorage × Option (List String × List String × Option PublicUser) :=
  if filenames.length = 0 then (st, none)
  else
    match MemStorage.getUser st selfId with
    | none => (st, none)
    | some currentUser =>
        let existingPhotos := currentUser.photos.getD []
        let newPhotoUrls := filenames.map (fun f => "/uploads/" ++ f)
        let allPhotos := existingPhotos ++ newPhotoUrls
        if allPhotos.length > 5 then (st, none)
        else
          let r := MemStorage.updateUser st selfId (fun u => { u with photos := some allPhotos })
          (r.1, some (allPhotos, newPhotoUrls, r.2.map toPublicUser))

/-- `DELETE /api/photos`: remove one URL from the user's gallery and
return the remaining gallery with the public projection of the updated
user; `none` models the error responses (missing URL — the empty string
is the falsy case — user not found, photo not in the gallery). -/
def apiDeletePhoto (st : MemStorage) (selfId photoUrl : String) :
    MemStorage × Option (List String × Option PublicUser) :=
  if photoUrl = "" then (st, none)
  else
    match MemStorage.getUser st selfId with
    | none => (st, none)
    | some currentUser =>
        let existingPhotos := currentUser.photos.getD []
        let updatedPhotos := existingPhotos.filter (fun photo => !(photo == photoUrl))
        if existingPhotos.length = updatedPhotos.length then (st, none)
        else
          let r := MemStorage.updateUser st selfId (fun u => { u with photos := some updatedPhotos })
          (r.1, some (updatedPhotos, r.2.map toPublicUser))

/-- `GET /api/notifications`: the user's notifications with each
`fromUser` mapped through `toPublicUser`. -/
def apiNotifications (st : MemStorage) (selfId : String) :
    List (Notification × Option PublicUser) :=
  (MemStorage.getUserNotifications st selfId).map fun p => (p.1, p.2.map toPublicUser)

/-- `MemStorage.getUserConversations` followed by the sanitisation in
`GET /api/conversations`: each conversation with the other participant's
public profile and the last message. -/
def apiConversations (st : MemStorage) (selfId : String) :
    List (Conversation × Option PublicUser × Option Message) :=
  let userConversations := (st.conversations.map Prod.snd).filter fun conv =>
    conv.participant1Id == selfId || conv.participant2Id == selfId
  let enriched := userConversations.map fun conv =>
    let otherUserId :=
      if conv.participant1Id == selfId then conv.participant2Id else conv.participant1Id
    (conv, (mapGet otherUserId st.users).map toPublicUser,
      (MemStorage.getMessages st conv.id).getLast?)
  enriched.mergeSort fun a b => b.1.lastMessageAt ≤ a.1.lastMessageAt

/-! ## `PgStorage` notification operations (`server/pg-storage.ts`)

The `notifications` table is a list of rows; the drizzle
`update ... set ... where` statement updates every matching row. -/

/-- `PgStorage.markAllNotificationsAsRead`:
`UPDATE notifications SET is_read = true WHERE user_id = U AND is_read = false`. -/
def pgMarkAllNotificationsAsRead (table : List Notification) (userId : String) :
    List Notification :=
  table.map fun n => if n.userId == userId && !n.isRead then { n with isRead := true } else n

/-- `PgStorage.getUnreadNotificationCount`: number of rows with
`user_id = U AND is_read = false`. -/
def pgGetUnreadNotificationCount (table : List Notification) (userId : String) : Nat :=
  (table.filter fun n => n.userId == userId && !n.isRead).length

/-- `POST /api/logout` (the WebSocket part): if the user has a registry
entry, close the socket, remove the entry, drop the focus set, persist
offline and broadcast `userOffline`; otherwise only the HTTP session is
terminated.  The returned flag records whether `ws.close()` was called. -/
def handleLogout (s : ServerState) (userId : String) : ServerState × List Sent × Bool :=
  match mapGet userId s.connectedUsers with
  | none => (s, [], false)
  | some _ =>
      let s1 : ServerState := { s with connectedUsers := mapDelete userId s.connectedUsers }
      let s2 : ServerState := { s1 with activeChatWindows := mapDelete userId s1.activeChatWindows }
      let s3 : ServerState := { s2 with store := MemStorage.setUserOnlineStatus s2.store userId false s2.now }
      (s3, broadcastToAll s3 (Frame.userOffline userId), true)

/-! ## Further map lemmas and sample fixtures -/

section MoreMapLemmas

variable {κ : Type u} {α : Type v} [DecidableEq κ]

theorem mapGet_some_mem {k : κ} {v : α} {l : List (κ × α)}
    (h : mapGet k l = some v) : (k, v) ∈ l := by
  induction l with
  | nil => simp [mapGet] at h
  | cons p rest ih =>
    obtain ⟨k1, v1⟩ := p
    by_cases hk : k1 = k
    · subst hk
      rw [show mapGet k1 ((k1, v1) :: rest) = some v1 from by simp [mapGet]] at h
      rw [show v = v1 from (Option.some.injEq _ _ ▸ h).symm]
      exact List.mem_cons_self _ _
    · simp only [mapGet, if_neg hk] at h
      exact List.mem_cons_of_mem _ (ih h)

theorem mapDelete_subset (k : κ) (l : List (κ × α)) :
    ∀ p ∈ mapDelete k l, p ∈ l := by
  induction l with
  | nil => simp [mapDelete]
  | cons q rest ih =>
    obtain ⟨k1, v1⟩ := q
    intro p hp
    by_cases hk : k1 = k
    · simp only [mapDelete, if_pos hk] at hp
      exact List.mem_cons_of_mem _ hp
    · simp only [mapDelete, if_neg hk] at hp
      rcases List.mem_cons.mp hp with hp2 | hp2
      · exact hp2 ▸ List.mem_cons_self _ _
      · exact List.mem_cons_of_mem _ (ih p hp2)

theorem mapGet_none_of_keys_lt {l : List (Nat × α)} {m : Nat}
    (h : ∀ p ∈ l, p.1 < m) : mapGet m l = none := by
  apply mapGet_eq_none_of_not_mem_keys
  intro hmem
  simp only [mapKeys, List.mem_map] at hmem
  obtain ⟨p, hp, he⟩ := hmem
  exact absurd (he ▸ h p hp) (lt_irrefl m)

/-- Number of registry entries stored under a key. -/
def countKey (k : κ) (l : List (κ × α)) : Nat :=
  (l.filter fun p => decide (p.1 = k)).length

theorem countKey_eq_one {k : κ} {v : α} {l : List (κ × α)}
    (hnodup : NodupKeys l) (hmem : mapGet k l = some v) : countKey k l = 1 := by
  induction l with
  | nil => simp [mapGet] at hmem
  | cons p rest ih =>
    obtain ⟨k1, v1⟩ := p
    simp only [NodupKeys, mapKeys, List.map_cons, List.nodup_cons] at hnodup
    by_cases hk : k1 = k
    · subst hk
      have hrest : (rest.filter fun p => decide (p.1 = k1)).length = 0 := by
        rw [List.length_eq_zero, List.filter_eq_nil_iff]
        intro a ha
        simp only [decide_eq_true_eq]
        intro he
        exact hnodup.1 (he ▸ List.mem_map_of_mem Prod.fst ha)
      simp [countKey, List.filter_cons, hrest]
    · simp only [mapGet, if_neg hk] at hmem
      have := ih hnodup.2 hmem
      simpa [countKey, List.filter_cons, hk] using this

end MoreMapLemmas

/-! Sample fixtures used by the witness theorems. -/

/-- A sample user record. -/
def userA : User :=
  { id := "A", username := "alice", password := "pwA", email := "a@x"
    firstName := "Alice", lastName := "L", gender := "female", profilePhoto := none
    age := 25, location := none, bio := none, photos := none, isOnline := true
    lastSeen := 0, createdAt := 0, filterGender := none, filterLocation := none
    filterAgeMin := none, filterAgeMax := none }

/-- A second sample user record. -/
def userB : User := { userA with id := "B", username := "bob", firstName := "Bob" }

/-- A sample storage state holding the two users. -/
def sampleStore : MemStorage :=
  { users := [("A", userA), ("B", userB)], conversations := [], messages := []
    notifications := [] }

/-- A sample open socket for user A. -/
def connA : Conn := { connId := 0, readyState := 1 }

/-- A sample open socket for user B. -/
def connB : Conn := { connId := 1, readyState := 1 }

/-- A sample server state with both users connected. -/
def sampleState : ServerState :=
  { store := sampleStore, connectedUsers := [("A", connA), ("B", connB)]
    activeChatWindows := [], nextId := 0, now := 0 }

/-! ## Claims -/

/-- Claim C5: a WebSocket handshake with no session cookie is closed
immediately with close code 1008 ("Authentication required") and
produces zero registry or presence side effects: the server state is
returned unchanged (no registry entry, no focus-tracker entry, no
online-flag update), no frame is broadcast, and the connection's
`userId` stays unset so the later `close` handler is a no-op as well. -/
theorem connection_without_cookie_is_rejected_without_side_effects
    (s : ServerState) (ws : Conn) (cookies : List (String × String))
    (sessionStore : String → Option String)
    (hnocookie : mapGet "connect.sid" cookies = none) :
    handleConnection s ws cookies sessionStore =
      { state := s, closed := some (1008, "Authentication required")
        userId := none, events := [] } ∧
    handleClose s (handleConnection s ws cookies sessionStore).userId = (s, []) := by
  have h1 : handleConnection s ws cookies sessionStore =
      { state := s, closed := some (1008, "Authentication required")
        userId := none, events := [] } := by
    unfold handleConnection
    rw [hnocookie]
  exact ⟨h1, by rw [h1]; rfl⟩

/-- Witness for C5 at a concrete state and an empty cookie header. -/
theorem connection_without_cookie_witness :
    handleConnection sampleState connA [] (fun _ => none) =
      { state := sampleState, closed := some (1008, "Authentication required")
        userId := none, events := [] } ∧
    handleClose sampleState (handleConnection sampleState connA [] (fun _ => none)).userId
      = (sampleState, []) :=
  connection_without_cookie_is_rejected_without_side_effects sampleState connA []
    (fun _ => none) (by rfl)

/-- Claim C6: `sendToUser` returns `true` exactly when a registry entry
exists whose socket is `OPEN`; in that case it writes the single frame
to that socket, and otherwise it is a no-op returning `false` (it is a
total function, so it never throws for an absent or unreachable
recipient). -/
theorem sendToUser_false_is_no_op
    (s : ServerState) (userId : String) (frame : Frame) :
    ((sendToUser s userId frame).1 = true ↔
      ∃ c, mapGet userId s.connectedUsers = some c ∧ c.readyState = WS_OPEN) ∧
    ((sendToUser s userId frame).1 = false → (sendToUser s userId frame).2 = []) ∧
    (mapGet userId s.connectedUsers = none → sendToUser s userId frame = (false, [])) ∧
    (∀ c, mapGet userId s.connectedUsers = some c → c.readyState ≠ WS_OPEN →
      sendToUser s userId frame = (false, [])) ∧
    (∀ c, mapGet userId s.connectedUsers = some c → c.readyState = WS_OPEN →
      sendToUser s userId frame = (true, [{ target := c.connId, frame := frame }])) := by
  unfold sendToUser
  cases hc : mapGet userId s.connectedUsers with
  | none =>
      refine ⟨?_, ?_, ?_, ?_, ?_⟩ <;> simp [hc]
  | some c =>
      by_cases hr : c.readyState = WS_OPEN
      · refine ⟨?_, ?_, ?_, ?_, ?_⟩ <;> simp [hc, hr]
      · have hr2 : (c.readyState == WS_OPEN) = false := by
          simpa using hr
        refine ⟨?_, ?_, ?_, ?_, ?_⟩ <;> simp [hc, hr, hr2]

/-- Witness for C6: user C has no registry entry in the sample state, so
`sendToUser` is a no-op returning `false` there. -/
theorem sendToUser_false_witness :
    sendToUser sampleState "C" (Frame.userOnline "A") = (false, []) :=
  (sendToUser_false_is_no_op sampleState "C" (Frame.userOnline "A")).2.2.1 (by rfl)

/-- Membership in a modelled `Set` after `add`. -/
theorem setAdd_mem {α : Type u} [DecidableEq α] (x a : α) (l : List α) :
    a ∈ setAdd x l ↔ a ∈ l ∨ a = x := by
  unfold setAdd
  by_cases h : x ∈ l
  · simp only [if_pos h]
    constructor
    · exact Or.inl
    · rintro (ha | ha)
      · exact ha
      · exact ha ▸ h
  · simp [if_neg h]

/-- Claim C7: focus-tracker operations on unrelated peers commute.  For
distinct peers `x ≠ y`, processing `openChatWindow` or `closeChatWindow`
from `u` for peer `x` never changes whether `u` is focused on `y`;
`open` adds `x` to `u`'s set (creating the set if absent) and `close`
removes `x`, deleting `u`'s map entry when the set becomes empty. -/
theorem focus_open_close_commute_unrelated
    (s : ServerState) (u x y : String)
    (hnodup : NodupKeys s.activeChatWindows)
    (hsets : ∀ p ∈ s.activeChatWindows, p.2.Nodup)
    (hxy : x ≠ y) :
    isFocused (handleOpenChatWindow s (some u) x) u y = isFocused s u y ∧
    isFocused (handleCloseChatWindow s (some u) x) u y = isFocused s u y ∧
    isFocused (handleOpenChatWindow s (some u) x) u x = true ∧
    isFocused (handleCloseChatWindow s (some u) x) u x = false ∧
    mapGet u (handleOpenChatWindow s (some u) x).activeChatWindows
      = some (setAdd x ((mapGet u s.activeChatWindows).getD [])) ∧
    mapGet u (handleCloseChatWindow s (some u) x).activeChatWindows
      = (if (((mapGet u s.activeChatWindows).getD []).erase x).length = 0 then none
         else some (((mapGet u s.activeChatWindows).getD []).erase x)) := by
  have hyx : y ≠ x := fun h => hxy h.symm
  have hopenGet : mapGet u (handleOpenChatWindow s (some u) x).activeChatWindows
      = some (setAdd x ((mapGet u s.activeChatWindows).getD [])) := by
    unfold handleOpenChatWindow
    exact mapGet_mapSet_same _ _ _
  have hopenY : isFocused (handleOpenChatWindow s (some u) x) u y = isFocused s u y := by
    unfold isFocused
    rw [hopenGet]
    cases hw : mapGet u s.activeChatWindows with
    | none =>
        simp only [Option.getD_none, Option.getD_some]
        simp [setAdd_mem, hyx]
    | some windowSet =>
        simp only [Option.getD_some]
        simp [setAdd_mem, hyx]
  have hopenX : isFocused (handleOpenChatWindow s (some u) x) u x = true := by
    unfold isFocused
    rw [hopenGet]
    simp [setAdd_mem]
  rcases hw : mapGet u s.activeChatWindows with _ | windowSet
  · have hcl : handleCloseChatWindow s (some u) x = s := by
      unfold handleCloseChatWindow
      simp only [hw]
    refine ⟨hopenY, by rw [hcl], hopenX, ?_, hw ▸ hopenGet, ?_⟩
    · rw [hcl]
      unfold isFocused
      rw [hw]
    · rw [hcl, hw]
      simp
  · have hwNodup : windowSet.Nodup := hsets _ (mapGet_some_mem hw)
    by_cases hrem : (windowSet.erase x).length = 0
    · have hremNil : windowSet.erase x = [] := List.length_eq_zero.mp hrem
      have hcl : handleCloseChatWindow s (some u) x
          = { s with activeChatWindows := mapDelete u s.activeChatWindows } := by
        unfold handleCloseChatWindow
        simp only [hw, hrem, if_pos]
      have hclGet : mapGet u (handleCloseChatWindow s (some u) x).activeChatWindows = none := by
        rw [hcl]
        exact mapGet_mapDelete_same hnodup
      have hyNot : y ∉ windowSet := by
        intro hy
        have hy2 : y ∈ windowSet.erase x := (List.mem_erase_of_ne hyx).mpr hy
        rw [hremNil] at hy2
        exact absurd hy2 (List.not_mem_nil y)
      refine ⟨hopenY, ?_, hopenX, ?_, hw ▸ hopenGet, ?_⟩
      · unfold isFocused
        rw [hclGet, hw]
        simp [hyNot]
      · unfold isFocused
        rw [hclGet]
      · rw [hclGet]
        simp [hrem]
    · have hcl : handleCloseChatWindow s (some u) x
          = { s with activeChatWindows := mapSet u (windowSet.erase x) s.activeChatWindows } := by
        unfold handleCloseChatWindow
        simp only [hw, hrem, if_neg, ite_false]
      have hclGet : mapGet u (handleCloseChatWindow s (some u) x).activeChatWindows
          = some (windowSet.erase x) := by
        rw [hcl]
        exact mapGet_mapSet_same _ _ _
      refine ⟨hopenY, ?_, hopenX, ?_, hw ▸ hopenGet, ?_⟩
      · unfold isFocused
        rw [hclGet, hw]
        simp [List.mem_erase_of_ne hyx]
      · unfold isFocused
        rw [hclGet]
        simp [hwNodup.not_mem_erase]
      · rw [hclGet]
        simp [hrem]

/-- Witness for C7 at a concrete state where user A has a window open
with B, acting on peer B while checking peer C. -/
theorem focus_open_close_commute_witness :
    (let s0 : ServerState := { sampleState with activeChatWindows := [("A", ["B"])] }
     isFocused (handleOpenChatWindow s0 (some "A") "B") "A" "C" = isFocused s0 "A" "C" ∧
     isFocused (handleCloseChatWindow s0 (some "A") "B") "A" "C" = isFocused s0 "A" "C" ∧
     isFocused (handleOpenChatWindow s0 (some "A") "B") "A" "B" = true ∧
     isFocused (handleCloseChatWindow s0 (some "A") "B") "A" "B" = false ∧
     mapGet "A" (handleOpenChatWindow s0 (some "A") "B").activeChatWindows
       = some (setAdd "B" ((mapGet "A" s0.activeChatWindows).getD [])) ∧
     mapGet "A" (handleCloseChatWindow s0 (some "A") "B").activeChatWindows
       = (if (((mapGet "A" s0.activeChatWindows).getD []).erase "B").length = 0 then none
          else some (((mapGet "A" s0.activeChatWindows).getD []).erase "B"))) :=
  focus_open_close_commute_unrelated
    { sampleState with activeChatWindows := [("A", ["B"])] } "A" "B" "C"
    (by unfold NodupKeys mapKeys; decide) (by decide) (by decide)

/-- Reduction of the connection handler on the successful
authentication path. -/
theorem handleConnection_success
    (s : ServerState) (ws : Conn) (cookies : List (String × String))
    (sessionStore : String → Option String) (sid uid : String) (u : User)
    (hcookie : mapGet "connect.sid" cookies = some sid)
    (hsession : sessionStore (stripSessionCookie sid) = some uid)
    (huser : MemStorage.getUser s.store uid = some u) :
    handleConnection s ws cookies sessionStore =
      (let s1 : ServerState := { s with connectedUsers := mapSet uid ws s.connectedUsers }
       let s2 : ServerState :=
         { s1 with store := MemStorage.setUserOnlineStatus s1.store uid true s1.now }
       { state := s2, closed := none, userId := some uid
         events := broadcastToAll s2 (Frame.userOnline uid) }) := by
  unfold handleConnection
  simp only [hcookie, hsession, huser]

/-- Claim C3: the connection registry holds at most one entry per user.
Successful registration preserves key uniqueness and leaves exactly one
entry for the connecting user, pointing at the new handle; a reconnect
through a second handshake (without a prior disconnect) replaces the
entry, so exactly one live entry remains and it points at the newest
handle.  `unregister` (socket close and logout) also preserves key
uniqueness. -/
theorem registry_at_most_one_entry_per_user
    (s : ServerState) (ws1 ws2 : Conn) (cookies : List (String × String))
    (sessionStore : String → Option String) (sid uid : String) (u : User)
    (hnodup : NodupKeys s.connectedUsers)
    (hcookie : mapGet "connect.sid" cookies = some sid)
    (hsession : sessionStore (stripSessionCookie sid) = some uid)
    (huser : MemStorage.getUser s.store uid = some u) :
    (let r1 := handleConnection s ws1 cookies sessionStore
     let r2 := handleConnection r1.state ws2 cookies sessionStore
     NodupKeys r1.state.connectedUsers ∧
     mapGet uid r1.state.connectedUsers = some ws1 ∧
     countKey uid r1.state.connectedUsers = 1 ∧
     NodupKeys r2.state.connectedUsers ∧
     mapGet uid r2.state.connectedUsers = some ws2 ∧
     countKey uid r2.state.connectedUsers = 1) ∧
    (∀ anyUserId : String, NodupKeys (handleClose s (some anyUserId)).1.connectedUsers) ∧
    (∀ anyUserId : String, NodupKeys (handleLogout s anyUserId).1.connectedUsers) := by
  have h1 := handleConnection_success s ws1 cookies sessionStore sid uid u hcookie hsession huser
  have hcu1 : (handleConnection s ws1 cookies sessionStore).state.connectedUsers
      = mapSet uid ws1 s.connectedUsers := by
    rw [h1]
  have huser1 : MemStorage.getUser (handleConnection s ws1 cookies sessionStore).state.store uid
      = some { u with isOnline := true, lastSeen := s.now } := by
    rw [h1]
    show MemStorage.getUser (MemStorage.setUserOnlineStatus s.store uid true s.now) uid = _
    unfold MemStorage.getUser MemStorage.setUserOnlineStatus
    unfold MemStorage.getUser at huser
    rw [huser]
    exact mapGet_mapSet_same _ _ _
  have h2 := handleConnection_success (handleConnection s ws1 cookies sessionStore).state
    ws2 cookies sessionStore sid uid { u with isOnline := true, lastSeen := s.now }
    hcookie hsession huser1
  have hcu2 : (handleConnection (handleConnection s ws1 cookies sessionStore).state
        ws2 cookies sessionStore).state.connectedUsers
      = mapSet uid ws2 (mapSet uid ws1 s.connectedUsers) := by
    rw [h2, hcu1]
  have hn1 : NodupKeys (mapSet uid ws1 s.connectedUsers) := nodupKeys_mapSet ws1 hnodup
  have hn2 : NodupKeys (mapSet uid ws2 (mapSet uid ws1 s.connectedUsers)) :=
    nodupKeys_mapSet ws2 hn1
  refine ⟨⟨?_, ?_, ?_, ?_, ?_, ?_⟩, ?_, ?_⟩
  · rw [hcu1]
    exact hn1
  · rw [hcu1]
    exact mapGet_mapSet_same _ _ _
  · rw [hcu1]
    exact countKey_eq_one hn1 (mapGet_mapSet_same _ _ _)
  · rw [hcu2]
    exact hn2
  · rw [hcu2]
    exact mapGet_mapSet_same _ _ _
  · rw [hcu2]
    exact countKey_eq_one hn2 (mapGet_mapSet_same _ _ _)
  · intro anyUserId
    unfold handleClose
    exact nodupKeys_mapDelete _ hnodup
  · intro anyUserId
    unfold handleLogout
    cases hc : mapGet anyUserId s.connectedUsers with
    | none => exact hnodup
    | some c => exact nodupKeys_mapDelete _ hnodup

/-- Witness for C3: user A reconnects with a second socket in the
sample state. -/
theorem registry_at_most_one_entry_witness :
    (let r1 := handleConnection sampleState { connId := 7, readyState := 1 }
       [("connect.sid", "sid-A")] (fun _ => some "A")
     let r2 := handleConnection r1.state { connId := 8, readyState := 1 }
       [("connect.sid", "sid-A")] (fun _ => some "A")
     NodupKeys r1.state.connectedUsers ∧
     mapGet "A" r1.state.connectedUsers = some { connId := 7, readyState := 1 } ∧
     countKey "A" r1.state.connectedUsers = 1 ∧
     NodupKeys r2.state.connectedUsers ∧
     mapGet "A" r2.state.connectedUsers = some { connId := 8, readyState := 1 } ∧
     countKey "A" r2.state.connectedUsers = 1) ∧
    (∀ anyUserId : String, NodupKeys (handleClose sampleState (some anyUserId)).1.connectedUsers) ∧
    (∀ anyUserId : String, NodupKeys (handleLogout sampleState anyUserId).1.connectedUsers) :=
  registry_at_most_one_entry_per_user sampleState
    { connId := 7, readyState := 1 } { connId := 8, readyState := 1 }
    [("connect.sid", "sid-A")] (fun _ => some "A")
    "sid-A" "A" userA
    (by unfold NodupKeys mapKeys; decide) (by rfl) (by rfl) (by rfl)

/-- `createConversation` does not touch the notifications map. -/
theorem createConversation_notifications (st : MemStorage) (fresh now : Nat)
    (p1 p2 : String) :
    (MemStorage.createConversation st fresh now p1 p2).1.notifications = st.notifications := rfl

/-- `createMessage` does not touch the notifications map. -/
theorem createMessage_notifications (st : MemStorage) (fresh now : Nat)
    (im : InsertMessage) :
    (MemStorage.createMessage st fresh now im).1.notifications = st.notifications := by
  unfold MemStorage.createMessage
  dsimp only
  split <;> rfl

/-- `createMessage` does not touch the users map. -/
theorem createMessage_users (st : MemStorage) (fresh now : Nat) (im : InsertMessage) :
    (MemStorage.createMessage st fresh now im).1.users = st.users := by
  unfold MemStorage.createMessage
  dsimp only
  split <;> rfl

/-- The message record built by `createMessage`. -/
theorem createMessage_snd (st : MemStorage) (fresh now : Nat) (im : InsertMessage) :
    (MemStorage.createMessage st fresh now im).2 =
      { id := fresh, conversationId := im.conversationId, senderId := im.senderId
        content := jsOrNull im.content, imageUrl := jsOrNull im.imageUrl
        timestamp := now } := by
  rfl

/-- `createMessage` stores exactly the built message under the fresh key. -/
theorem createMessage_messages (st : MemStorage) (fresh now : Nat) (im : InsertMessage) :
    (MemStorage.createMessage st fresh now im).1.messages
      = mapSet fresh (MemStorage.createMessage st fresh now im).2 st.messages := by
  unfold MemStorage.createMessage
  dsimp only
  split <;> rfl

/-- `isFocused` as a function of the focus tracker alone. -/
def isFocusedW (w : List (String × List String)) (userId peerId : String) : Bool :=
  match mapGet userId w with
  | some windowSet => windowSet.contains peerId
  | none => false

/-- `isFocused` only reads the focus tracker component. -/
theorem isFocused_mk (st : MemStorage) (cu : List (String × Conn))
    (w : List (String × List String)) (n t : Nat) (u p : String) :
    isFocused { store := st, connectedUsers := cu, activeChatWindows := w
                nextId := n, now := t } u p = isFocusedW w u p := rfl

/-- Rewriting `isFocused` to its focus-tracker normal form. -/
theorem isFocused_w (s : ServerState) (u p : String) :
    isFocused s u p = isFocusedW s.activeChatWindows u p := rfl

/-- `isFocused` only reads the focus tracker, so storage and counter
updates do not change it. -/
theorem isFocused_store_update (s : ServerState) (st : MemStorage) (n : Nat)
    (u p : String) :
    isFocused { s with store := st, nextId := n } u p = isFocused s u p := rfl

/-- Claim C1: for every `sendMessage`, when sender and recipient each
have a chat window open with the other at send time, no
`message_received` notification is created (the notifications map is
untouched); otherwise exactly one `message_received` notification for
the recipient is appended.  Freshness of generated ids is the standing
invariant that all stored notification keys are below the id counter. -/
theorem sendMessage_notification_suppression
    (s : ServerState) (senderId receiverId : String) (ws : Conn)
    (content imageUrl : Option String)
    (hfresh : ∀ p ∈ s.store.notifications, p.1 < s.nextId) :
    (let r := handleSendMessage s (some senderId) ws receiverId content imageUrl
     if isFocused s senderId receiverId && isFocused s receiverId senderId then
       r.1.store.notifications = s.store.notifications
     else
       ∃ n : Notification,
         r.1.store.notifications = s.store.notifications ++ [(n.id, n)] ∧
         n.userId = receiverId ∧ n.type = "message_received" ∧
         n.fromUserId = senderId ∧ n.isRead = false) := by
  have hfresh1 : mapGet (s.nextId + 1) s.store.notifications = none :=
    mapGet_none_of_keys_lt fun p hp => Nat.lt_succ_of_lt (hfresh p hp)
  have hfresh2 : mapGet (s.nextId + 2) s.store.notifications = none :=
    mapGet_none_of_keys_lt fun p hp =>
      Nat.lt_succ_of_lt (Nat.lt_succ_of_lt (hfresh p hp))
  unfold handleSendMessage
  cases hconv : MemStorage.getConversation s.store senderId receiverId with
  | some conversation =>
      dsimp only
      simp only [hconv]
      by_cases hfoc : (isFocused s senderId receiverId && isFocused s receiverId senderId) = true
      · simp only [isFocused_store_update, hfoc, if_true, if_pos]
        simp only [createMessage_notifications]
      · have hfoc2 : (isFocused s senderId receiverId && isFocused s receiverId senderId) = false :=
          Bool.not_eq_true _ ▸ (Bool.eq_false_iff.mpr hfoc)
        simp only [isFocused_store_update, hfoc2, Bool.false_eq_true, if_false]
        refine ⟨{ id := s.nextId + 1, userId := receiverId, type := "message_received"
                  fromUserId := senderId, conversationId := some conversation.id
                  isRead := false, data := none, createdAt := s.now }, ?_, rfl, rfl, rfl, rfl⟩
        unfold MemStorage.createNotification
        dsimp only
        rw [createMessage_notifications]
        exact mapSet_fresh _ hfresh1
  | none =>
      dsimp only
      simp only [hconv]
      by_cases hfoc : (isFocused s senderId receiverId && isFocused s receiverId senderId) = true
      · simp only [isFocused_store_update, hfoc, if_true, if_pos]
        simp only [createMessage_notifications, createConversation_notifications]
      · have hfoc2 : (isFocused s senderId receiverId && isFocused s receiverId senderId) = false :=
          Bool.not_eq_true _ ▸ (Bool.eq_false_iff.mpr hfoc)
        simp only [isFocused_store_update, hfoc2, Bool.false_eq_true, if_false]
        refine ⟨{ id := s.nextId + 2, userId := receiverId, type := "message_received"
                  fromUserId := senderId, conversationId := some s.nextId
                  isRead := false, data := none, createdAt := s.now }, ?_, rfl, rfl, rfl, rfl⟩
        unfold MemStorage.createNotification
        dsimp only
        rw [createMessage_notifications, createConversation_notifications]
        exact mapSet_fresh _ hfresh2

/-- Witness for C1 in the suppressed direction is covered by the
unsuppressed sample below: in `sampleState` nobody has a window open, so
exactly one notification is appended. -/
theorem sendMessage_notification_suppression_witness :
    (let r := handleSendMessage sampleState (some "A") connA "B" (some "hi") none
     if isFocused sampleState "A" "B" && isFocused sampleState "B" "A" then
       r.1.store.notifications = sampleState.store.notifications
     else
       ∃ n : Notification,
         r.1.store.notifications = sampleState.store.notifications ++ [(n.id, n)] ∧
         n.userId = "B" ∧ n.type = "message_received" ∧
         n.fromUserId = "A" ∧ n.isRead = false) :=
  sendMessage_notification_suppression sampleState "A" "B" connA (some "hi") none
    (by decide)

/-- `createConversation` does not touch the users map. -/
theorem getUser_createConversation (st : MemStorage) (fresh now : Nat)
    (p1 p2 uid : String) :
    MemStorage.getUser (MemStorage.createConversation st fresh now p1 p2).1 uid
      = MemStorage.getUser st uid := rfl

/-- `createMessage` does not touch the users map. -/
theorem getUser_createMessage (st : MemStorage) (fresh now : Nat)
    (im : InsertMessage) (uid : String) :
    MemStorage.getUser (MemStorage.createMessage st fresh now im).1 uid
      = MemStorage.getUser st uid := by
  unfold MemStorage.getUser
  rw [createMessage_users]

/-- `createNotification` does not touch the users map. -/
theorem getUser_createNotification (st : MemStorage) (fresh now : Nat)
    (inr : InsertNotification) (uid : String) :
    MemStorage.getUser (MemStorage.createNotification st fresh now inr).1 uid
      = MemStorage.getUser st uid := rfl

/-- `createNotification` does not touch the messages map. -/
theorem createNotification_messages (st : MemStorage) (fresh now : Nat)
    (inr : InsertNotification) :
    (MemStorage.createNotification st fresh now inr).1.messages = st.messages := rfl

/-- Splitting membership in a three-part concatenation. -/
theorem mem_three_append {α : Type u} {e : α} {A B C : List α}
    (he : e ∈ A ++ B ++ C) : e ∈ A ∨ e ∈ B ∨ e ∈ C := by
  rcases List.mem_append.mp he with h2 | h2
  · rcases List.mem_append.mp h2 with h3 | h3
    · exact Or.inl h3
    · exact Or.inr (Or.inl h3)
  · exact Or.inr (Or.inr h2)

/-- Claim C2: for every `sendMessage` the message is persisted to
storage before any delivery attempt, and delivery failure never
prevents persistence.  Concretely: (a) after the handler runs a message
with the given sender and payload is stored, and the unconditional
`messageConfirmed` frame carries exactly that stored message; (b) the
resulting storage state is completely independent of the connection
registry, so it is the same even when the recipient is offline or
absent; (c) any `newMessage` frame delivered to the recipient carries
exactly the already-persisted message. -/
theorem sendMessage_persisted_despite_delivery_failure
    (s : ServerState) (senderId receiverId : String) (ws : Conn)
    (content imageUrl : Option String) :
    (let r := handleSendMessage s (some senderId) ws receiverId content imageUrl
     (∃ m : Message,
        mapGet m.id r.1.store.messages = some m ∧
        m.senderId = senderId ∧ m.content = jsOrNull content ∧
        m.imageUrl = jsOrNull imageUrl ∧
        { target := ws.connId, frame := Frame.messageConfirmed m } ∈ r.2) ∧
     (∀ cu : List (String × Conn),
        (handleSendMessage { s with connectedUsers := cu } (some senderId) ws
            receiverId content imageUrl).1.store = r.1.store) ∧
     (∀ e ∈ r.2, ∀ m sender, e.frame = Frame.newMessage m sender →
        mapGet m.id r.1.store.messages = some m)) := by
  unfold handleSendMessage
  cases hconv : MemStorage.getConversation s.store senderId receiverId with
  | some conversation =>
      dsimp only
      simp only [hconv]
      by_cases hfoc : (isFocusedW s.activeChatWindows senderId receiverId
          && isFocusedW s.activeChatWindows receiverId senderId) = true
      · simp only [isFocused_w, isFocused_mk, hfoc, if_true, if_pos]
        refine ⟨⟨{ id := s.nextId, conversationId := conversation.id, senderId := senderId
                   content := jsOrNull content, imageUrl := jsOrNull imageUrl
                   timestamp := s.now }, ?_, rfl, rfl, rfl, ?_⟩, ?_, ?_⟩
        · rw [createMessage_messages]
          exact mapGet_mapSet_same _ _ _
        · exact List.mem_append_right _ (List.mem_singleton_self _)
        · intro cu
          trivial
        · intro e he m2 sender hm
          rcases mem_three_append he with hA | hB | hC
          · rcases hrc : mapGet receiverId s.connectedUsers with _ | rc
            · simp only [hrc] at hA
              exact absurd hA (List.not_mem_nil e)
            · simp only [hrc] at hA
              by_cases hro : (rc.readyState == WS_OPEN) = true
              · rw [if_pos hro] at hA
                rw [List.mem_singleton.mp hA] at hm
                simp only [Frame.newMessage.injEq] at hm
                rw [← hm.1, createMessage_messages]
                exact mapGet_mapSet_same _ _ _
              · rw [if_neg hro] at hA
                exact absurd hA (List.not_mem_nil e)
          · exact absurd hB (List.not_mem_nil e)
          · rw [List.mem_singleton.mp hC] at hm
            simp at hm
      · have hfoc2 : (isFocusedW s.activeChatWindows senderId receiverId
            && isFocusedW s.activeChatWindows receiverId senderId) = false :=
          Bool.not_eq_true _ ▸ (Bool.eq_false_iff.mpr hfoc)
        simp only [isFocused_w, isFocused_mk, hfoc2, Bool.false_eq_true, if_false]
        refine ⟨⟨{ id := s.nextId, conversationId := conversation.id, senderId := senderId
                   content := jsOrNull content, imageUrl := jsOrNull imageUrl
                   timestamp := s.now }, ?_, rfl, rfl, rfl, ?_⟩, ?_, ?_⟩
        · rw [createNotification_messages, createMessage_messages]
          exact mapGet_mapSet_same _ _ _
        · exact List.mem_append_right _ (List.mem_singleton_self _)
        · intro cu
          trivial
        · intro e he m2 sender hm
          rcases mem_three_append he with hA | hB | hC
          · rcases hrc : mapGet receiverId s.connectedUsers with _ | rc
            · simp only [hrc] at hA
              exact absurd hA (List.not_mem_nil e)
            · simp only [hrc] at hA
              by_cases hro : (rc.readyState == WS_OPEN) = true
              · rw [if_pos hro] at hA
                rw [List.mem_singleton.mp hA] at hm
                simp only [Frame.newMessage.injEq] at hm
                rw [← hm.1, createNotification_messages, createMessage_messages]
                exact mapGet_mapSet_same _ _ _
              · rw [if_neg hro] at hA
                exact absurd hA (List.not_mem_nil e)
          · simp only [getUser_createNotification, getUser_createMessage,
              getUser_createConversation] at hB
            rcases hgu : MemStorage.getUser s.store senderId with _ | su
            all_goals simp only [hgu] at hB
            · exact absurd hB (List.not_mem_nil e)
            · rcases hrc2 : mapGet receiverId s.connectedUsers with _ | rc2
              all_goals simp only [hrc2] at hB
              · exact absurd hB (List.not_mem_nil e)
              · by_cases hro2 : (rc2.readyState == WS_OPEN) = true
                · rw [if_pos hro2] at hB
                  rw [List.mem_singleton.mp hB] at hm
                  simp at hm
                · rw [if_neg hro2] at hB
                  exact absurd hB (List.not_mem_nil e)
          · rw [List.mem_singleton.mp hC] at hm
            simp at hm
  | none =>
      dsimp only
      simp only [hconv]
      by_cases hfoc : (isFocusedW s.activeChatWindows senderId receiverId
          && isFocusedW s.activeChatWindows receiverId senderId) = true
      · simp only [isFocused_w, isFocused_mk, hfoc, if_true, if_pos]
        refine ⟨⟨{ id := s.nextId + 1, conversationId := s.nextId, senderId := senderId
                   content := jsOrNull content, imageUrl := jsOrNull imageUrl
                   timestamp := s.now }, ?_, rfl, rfl, rfl, ?_⟩, ?_, ?_⟩
        · rw [createMessage_messages]
          exact mapGet_mapSet_same _ _ _
        · exact List.mem_append_right _ (List.mem_singleton_self _)
        · intro cu
          trivial
        · intro e he m2 sender hm
          rcases mem_three_append he with hA | hB | hC
          · rcases hrc : mapGet receiverId s.connectedUsers with _ | rc
            · simp only [hrc] at hA
              exact absurd hA (List.not_mem_nil e)
            · simp only [hrc] at hA
              by_cases hro : (rc.readyState == WS_OPEN) = true
              · rw [if_pos hro] at hA
                rw [List.mem_singleton.mp hA] at hm
                simp only [Frame.newMessage.injEq] at hm
                rw [← hm.1, createMessage_messages]
                exact mapGet_mapSet_same _ _ _
              · rw [if_neg hro] at hA
                exact absurd hA (List.not_mem_nil e)
          · exact absurd hB (List.not_mem_nil e)
          · rw [List.mem_singleton.mp hC] at hm
            simp at hm
      · have hfoc2 : (isFocusedW s.activeChatWindows senderId receiverId
            && isFocusedW s.activeChatWindows receiverId senderId) = false :=
          Bool.not_eq_true _ ▸ (Bool.eq_false_iff.mpr hfoc)
        simp only [isFocused_w, isFocused_mk, hfoc2, Bool.false_eq_true, if_false]
        refine ⟨⟨{ id := s.nextId + 1, conversationId := s.nextId, senderId := senderId
                   content := jsOrNull content, imageUrl := jsOrNull imageUrl
                   timestamp := s.now }, ?_, rfl, rfl, rfl, ?_⟩, ?_, ?_⟩
        · rw [createNotification_messages, createMessage_messages]
          exact mapGet_mapSet_same _ _ _
        · exact List.mem_append_right _ (List.mem_singleton_self _)
        · intro cu
          trivial
        · intro e he m2 sender hm
          rcases mem_three_append he with hA | hB | hC
          · rcases hrc : mapGet receiverId s.connectedUsers with _ | rc
            · simp only [hrc] at hA
              exact absurd hA (List.not_mem_nil e)
            · simp only [hrc] at hA
              by_cases hro : (rc.readyState == WS_OPEN) = true
              · rw [if_pos hro] at hA
                rw [List.mem_singleton.mp hA] at hm
                simp only [Frame.newMessage.injEq] at hm
                rw [← hm.1, createNotification_messages, createMessage_messages]
                exact mapGet_mapSet_same _ _ _
              · rw [if_neg hro] at hA
                exact absurd hA (List.not_mem_nil e)
          · simp only [getUser_createNotification, getUser_createMessage,
              getUser_createConversation] at hB
            rcases hgu : MemStorage.getUser s.store senderId with _ | su
            all_goals simp only [hgu] at hB
            · exact absurd hB (List.not_mem_nil e)
            · rcases hrc2 : mapGet receiverId s.connectedUsers with _ | rc2
              all_goals simp only [hrc2] at hB
              · exact absurd hB (List.not_mem_nil e)
              · by_cases hro2 : (rc2.readyState == WS_OPEN) = true
                · rw [if_pos hro2] at hB
                  rw [List.mem_singleton.mp hB] at hm
                  simp at hm
                · rw [if_neg hro2] at hB
                  exact absurd hB (List.not_mem_nil e)
          · rw [List.mem_singleton.mp hC] at hm
            simp at hm

/-- Witness for C2 at a concrete state in which the recipient is
connected. -/
theorem sendMessage_persisted_witness :
    (let r := handleSendMessage sampleState (some "A") connA "B" (some "hi") none
     (∃ m : Message,
        mapGet m.id r.1.store.messages = some m ∧
        m.senderId = "A" ∧ m.content = jsOrNull (some "hi") ∧
        m.imageUrl = jsOrNull none ∧
        { target := connA.connId, frame := Frame.messageConfirmed m } ∈ r.2) ∧
     (∀ cu : List (String × Conn),
        (handleSendMessage { sampleState with connectedUsers := cu } (some "A") connA
            "B" (some "hi") none).1.store = r.1.store) ∧
     (∀ e ∈ r.2, ∀ m sender, e.frame = Frame.newMessage m sender →
        mapGet m.id r.1.store.messages = some m)) :=
  sendMessage_persisted_despite_delivery_failure sampleState "A" "B" connA (some "hi") none

/-- Counting the frames of one broadcast pass that reach a given socket:
with duplicate-free registry keys, an entry for `uidB` holding the open
socket `cb`, and `cb.connId` used by no other entry, exactly one frame
of the pass reaches `cb`. -/
theorem broadcast_filter_count (l : List (String × Conn)) (f : Frame)
    (uidB : String) (cb : Conn)
    (hn : NodupKeys l) (hB : mapGet uidB l = some cb) (hopen : cb.readyState = WS_OPEN)
    (huniq : ∀ p ∈ l, p.2.connId = cb.connId → p.1 = uidB) :
    (((l.filter fun p => p.2.readyState == WS_OPEN).map
        (fun p => ({ target := p.2.connId, frame := f } : Sent))).filter
          fun e => e.frame == f && e.target == cb.connId).length = 1 := by
  induction l with
  | nil => simp [mapGet] at hB
  | cons q rest ih =>
    obtain ⟨k, c⟩ := q
    simp only [NodupKeys, mapKeys, List.map_cons, List.nodup_cons] at hn
    by_cases hk : k = uidB
    · subst hk
      have hc : c = cb := Option.some.inj (by simpa [mapGet] using hB)
      subst hc
      have hco : (c.readyState == WS_OPEN) = true := by simp [hopen]
      have htail : (((rest.filter fun p => p.2.readyState == WS_OPEN).map
          (fun p => ({ target := p.2.connId, frame := f } : Sent))).filter
            fun e => e.frame == f && e.target == c.connId) = [] := by
        rw [List.filter_eq_nil_iff]
        intro e hme
        rcases List.mem_map.mp hme with ⟨p, hp, hpe⟩
        have hpl : p ∈ rest := List.mem_of_mem_filter hp
        intro hpred
        rw [← hpe] at hpred
        simp only [beq_iff_eq, Bool.and_eq_true] at hpred
        have hkey : p.1 = k := huniq p (List.mem_cons_of_mem _ hpl) hpred.2
        exact hn.1 (hkey ▸ List.mem_map_of_mem Prod.fst hpl)
      have hpred : ((f == f) && (c.connId == c.connId)) = true := by simp
      simp only [List.filter_cons, hco, if_true, if_pos, List.map_cons]
      simp only [hpred, if_true, if_pos, List.length_cons, htail, List.length_nil]
    · have hne2 : c.connId ≠ cb.connId := by
        intro he
        exact hk (huniq (k, c) (List.mem_cons_self _ _) he)
      have hBtail : mapGet uidB rest = some cb := by
        have h2 := hB
        simp only [mapGet, if_neg hk] at h2
        exact h2
      have huniq2 : ∀ p ∈ rest, p.2.connId = cb.connId → p.1 = uidB := fun p hp =>
        huniq p (List.mem_cons_of_mem _ hp)
      have ihr := ih hn.2 hBtail huniq2
      by_cases hco : (c.readyState == WS_OPEN) = true
      · have hpred : ¬ (((f == f) && (c.connId == cb.connId)) = true) := by
          simp [hne2]
        simp only [List.filter_cons, hco, if_true, if_pos, List.map_cons]
        simp only [if_neg hpred]
        exact ihr
      · simp only [List.filter_cons, hco, Bool.false_eq_true, if_false]
        exact ihr

/-- Claim C4 fails on the code: an explicit logout followed by the
transport close of the same socket broadcasts `userOffline` twice.  In
the sample state (users A and B connected), after `POST /api/logout`
for A the close handler of A's socket still sees the authenticated
`userId` closure variable and broadcasts again: two `userOffline A`
frames are emitted in total. -/
theorem logout_then_close_double_broadcast :
    (((handleLogout sampleState "A").2.1 ++
        (handleClose (handleLogout sampleState "A").1 (some "A")).2).filter
          fun e => e.frame == Frame.userOffline "A").length = 2 := by decide

/-- Claim C4 amended: disconnect handling never throws on a missing
registry entry, and a transport close followed by an explicit logout
broadcasts `userOffline` exactly once (the logout pass finds the
registry entry already gone and does nothing); but an explicit logout
followed by the transport close of the closed socket broadcasts
`userOffline` twice — the close handler keys on the connection's
authenticated identity, not on registry membership — although the
second pass removes nothing further from the registry. -/
theorem disconnect_broadcast_counts
    (s : ServerState) (uidA uidB : String) (ca cb : Conn)
    (hnodup : NodupKeys s.connectedUsers)
    (hA : mapGet uidA s.connectedUsers = some ca)
    (hB : mapGet uidB s.connectedUsers = some cb)
    (hopen : cb.readyState = WS_OPEN)
    (hne : uidA ≠ uidB)
    (huniq : ∀ p ∈ s.connectedUsers, p.2.connId = cb.connId → p.1 = uidB) :
    (let r1 := handleLogout s uidA
     let r2 := handleClose r1.1 (some uidA)
     ((r1.2.1 ++ r2.2).filter
        fun e => e.frame == Frame.userOffline uidA && e.target == cb.connId).length = 2 ∧
     r2.1.connectedUsers = r1.1.connectedUsers) ∧
    (let q1 := handleClose s (some uidA)
     let q2 := handleLogout q1.1 uidA
     ((q1.2 ++ q2.2.1).filter
        fun e => e.frame == Frame.userOffline uidA && e.target == cb.connId).length = 1 ∧
     q2.2.2 = false ∧ q2.1 = q1.1) := by
  have hBne : uidB ≠ uidA := fun h => hne h.symm
  have hdel : NodupKeys (mapDelete uidA s.connectedUsers) :=
    nodupKeys_mapDelete uidA hnodup
  have hBdel : mapGet uidB (mapDelete uidA s.connectedUsers) = some cb := by
    rw [mapGet_mapDelete_other hBne]
    exact hB
  have huniqdel : ∀ p ∈ mapDelete uidA s.connectedUsers,
      p.2.connId = cb.connId → p.1 = uidB := fun p hp =>
    huniq p (mapDelete_subset uidA s.connectedUsers p hp)
  have hgone : mapGet uidA (mapDelete uidA s.connectedUsers) = none :=
    mapGet_mapDelete_same hnodup
  have hdel2 : mapDelete uidA (mapDelete uidA s.connectedUsers)
      = mapDelete uidA s.connectedUsers := mapDelete_of_not_mem hgone
  have hcount : ((((mapDelete uidA s.connectedUsers).filter
        fun p => p.2.readyState == WS_OPEN).map
        (fun p => ({ target := p.2.connId, frame := Frame.userOffline uidA } : Sent))).filter
          fun e => e.frame == Frame.userOffline uidA && e.target == cb.connId).length = 1 :=
    broadcast_filter_count _ _ _ _ hdel hBdel hopen huniqdel
  constructor
  · have hlog : handleLogout s uidA
        = (let s1 : ServerState := { s with connectedUsers := mapDelete uidA s.connectedUsers }
           let s2 : ServerState := { s1 with activeChatWindows := mapDelete uidA s1.activeChatWindows }
           let s3 : ServerState := { s2 with store := MemStorage.setUserOnlineStatus s2.store uidA false s2.now }
           (s3, broadcastToAll s3 (Frame.userOffline uidA), true)) := by
      unfold handleLogout
      rw [hA]
    constructor
    · rw [hlog]
      dsimp only
      unfold handleClose
      dsimp only
      rw [List.filter_append, List.length_append]
      unfold broadcastToAll
      dsimp only
      rw [hdel2]
      rw [hcount]
    · rw [hlog]
      dsimp only
      unfold handleClose
      dsimp only
      rw [hdel2]
  · have hcl : handleClose s (some uidA)
        = (let s1 : ServerState := { s with connectedUsers := mapDelete uidA s.connectedUsers }
           let s2 : ServerState := { s1 with store := MemStorage.setUserOnlineStatus s1.store uidA false s1.now }
           let s3 : ServerState := { s2 with activeChatWindows := mapDelete uidA s2.activeChatWindows }
           (s3, broadcastToAll s3 (Frame.userOffline uidA))) := rfl
    have hlog2 : handleLogout (handleClose s (some uidA)).1 uidA
        = ((handleClose s (some uidA)).1, [], false) := by
      unfold handleLogout
      rw [hcl]
      dsimp only
      rw [hgone]
    dsimp only
    rw [hlog2]
    refine ⟨?_, rfl, rfl⟩
    rw [hcl]
    dsimp only
    rw [List.filter_append, List.length_append]
    unfold broadcastToAll
    dsimp only
    rw [hcount]
    rfl

/-- Witness for the amended C4 at the sample state: A logs out and A's
socket then closes; B's socket receives `userOffline A` twice in that
order and once in the reverse order. -/
theorem disconnect_broadcast_counts_witness :
    (let r1 := handleLogout sampleState "A"
     let r2 := handleClose r1.1 (some "A")
     ((r1.2.1 ++ r2.2).filter
        fun e => e.frame == Frame.userOffline "A" && e.target == connB.connId).length = 2 ∧
     r2.1.connectedUsers = r1.1.connectedUsers) ∧
    (let q1 := handleClose sampleState (some "A")
     let q2 := handleLogout q1.1 "A"
     ((q1.2 ++ q2.2.1).filter
        fun e => e.frame == Frame.userOffline "A" && e.target == connB.connId).length = 1 ∧
     q2.2.2 = false ∧ q2.1 = q1.1) :=
  disconnect_broadcast_counts sampleState "A" "B" connA connB
    (by unfold NodupKeys mapKeys; decide) (by rfl) (by rfl) (by rfl) (by decide) (by decide)

/-- Claim C9: `POST /api/logout` for an authenticated user with no
registry entry leaves the whole server state unchanged (registry, focus
tracker and persisted online flag included), broadcasts nothing and
does not call `ws.close()`; only the HTTP session is terminated. -/
theorem logout_without_registry_entry_is_pure
    (s : ServerState) (userId : String)
    (h : mapGet userId s.connectedUsers = none) :
    handleLogout s userId = (s, [], false) := by
  unfold handleLogout
  rw [h]

/-- Witness for C9: user C is not in the sample registry. -/
theorem logout_without_registry_entry_witness :
    handleLogout sampleState "C" = (sampleState, [], false) :=
  logout_without_registry_entry_is_pure sampleState "C" (by rfl)

/-- The marking step used by `markAllNotificationsAsRead`. -/
def markStep (acc : List (Nat × Notification)) (n : Notification) :
    List (Nat × Notification) :=
  mapSet n.id { n with isRead := true } acc

/-- Lookup after folding the marking step: keys named by the processed
notifications (whose ids are pairwise distinct) now hold the marked
copies, all other keys are untouched. -/
theorem foldl_markStep_lookup (L : List Notification)
    (base : List (Nat × Notification)) (k : Nat)
    (hdist : (L.map Notification.id).Nodup) :
    mapGet k (L.foldl markStep base)
      = (match L.find? (fun n => n.id == k) with
         | some n => some { n with isRead := true }
         | none => mapGet k base) := by
  induction L generalizing base with
  | nil => simp [List.find?]
  | cons n0 T ih =>
    simp only [List.map_cons, List.nodup_cons] at hdist
    rw [List.foldl_cons, ih _ hdist.2]
    by_cases hk : n0.id = k
    · have hT : T.find? (fun n => n.id == k) = none := by
        rw [List.find?_eq_none]
        intro n hn
        simp only [beq_iff_eq]
        intro he
        exact hdist.1 (by rw [hk, ← he]; exact List.mem_map_of_mem _ hn)
      have hf : (n0 :: T).find? (fun n => n.id == k) = some n0 := by
        rw [List.find?_cons]
        simp [beq_iff_eq, hk]
      rw [hT, hf]
      dsimp only
      unfold markStep
      rw [hk]
      exact mapGet_mapSet_same _ _ _
    · have hb : (n0.id == k) = false := by
        simp [hk]
      have hf : (n0 :: T).find? (fun n => n.id == k)
          = T.find? (fun n => n.id == k) := by
        rw [List.find?_cons, hb]
      rw [hf]
      cases hfT : T.find? (fun n => n.id == k) with
      | some n => rfl
      | none =>
          dsimp only
          unfold markStep
          exact mapGet_mapSet_other (fun h => hk h.symm) _ _

/-- Folding the marking step preserves key uniqueness. -/
theorem foldl_markStep_nodup (L : List Notification)
    (base : List (Nat × Notification)) (h : NodupKeys base) :
    NodupKeys (L.foldl markStep base) := by
  induction L generalizing base with
  | nil => exact h
  | cons n0 T ih =>
    rw [List.foldl_cons]
    exact ih _ (nodupKeys_mapSet _ h)

/-- Claim C10: after `markAllNotificationsAsRead(U)` the unread count of
`U` is zero, and notifications belonging to other users are unchanged —
for the in-memory storage engine (under the storage invariant that each
notification is keyed by its own id and keys are unique) and for the
PostgreSQL one (a table of rows updated by the `WHERE` clause). -/
theorem markAllRead_zero_unread (st : MemStorage) (uid : String)
    (hnodup : NodupKeys st.notifications)
    (hid : ∀ p ∈ st.notifications, p.2.id = p.1) :
    MemStorage.getUnreadNotificationCount
      (MemStorage.markAllNotificationsAsRead st uid) uid = 0 ∧
    (∀ k n, mapGet k st.notifications = some n → n.userId ≠ uid →
      mapGet k (MemStorage.markAllNotificationsAsRead st uid).notifications = some n) ∧
    (∀ (table : List Notification) (uid2 : String),
      pgGetUnreadNotificationCount (pgMarkAllNotificationsAsRead table uid2) uid2 = 0 ∧
      ∀ n ∈ table, n.userId ≠ uid2 → n ∈ pgMarkAllNotificationsAsRead table uid2) := by
  have hvalsid : st.notifications.map (fun p => p.2.id) = mapKeys st.notifications :=
    List.map_eq_map_iff.mpr hid
  have hvalnodup : ((st.notifications.map Prod.snd).map Notification.id).Nodup := by
    rw [List.map_map]
    exact hvalsid ▸ hnodup
  have hdist : (((st.notifications.map Prod.snd).filter
      (fun n => n.userId == uid && !n.isRead)).map Notification.id).Nodup :=
    List.Sublist.nodup (List.Sublist.map _ (List.filter_sublist _)) hvalnodup
  have hres : (MemStorage.markAllNotificationsAsRead st uid).notifications
      = ((st.notifications.map Prod.snd).filter
          (fun n => n.userId == uid && !n.isRead)).foldl markStep st.notifications := rfl
  have hresnodup : NodupKeys (MemStorage.markAllNotificationsAsRead st uid).notifications := by
    rw [hres]
    exact foldl_markStep_nodup _ _ hnodup
  have hlook : ∀ k, mapGet k (MemStorage.markAllNotificationsAsRead st uid).notifications
      = (match ((st.notifications.map Prod.snd).filter
            (fun n => n.userId == uid && !n.isRead)).find? (fun n => n.id == k) with
         | some n => some { n with isRead := true }
         | none => mapGet k st.notifications) := by
    intro k
    rw [hres]
    exact foldl_markStep_lookup _ _ k hdist
  refine ⟨?_, ?_, ?_⟩
  · unfold MemStorage.getUnreadNotificationCount
    rw [List.length_eq_zero, List.filter_eq_nil_iff]
    intro n hn
    rcases List.mem_map.mp hn with ⟨p, hp, hpn⟩
    have hget : mapGet p.1 (MemStorage.markAllNotificationsAsRead st uid).notifications
        = some p.2 := mapGet_of_mem hresnodup hp
    rw [hlook p.1] at hget
    intro hpred
    rw [← hpn] at hpred
    cases hfind : ((st.notifications.map Prod.snd).filter
        (fun n => n.userId == uid && !n.isRead)).find? (fun n => n.id == p.1) with
    | some n2 =>
        rw [hfind] at hget
        have hp2 : p.2 = { n2 with isRead := true } := Option.some.inj hget.symm
        rw [hp2] at hpred
        simp at hpred
    | none =>
        rw [hfind] at hget
        have hfa := List.find?_eq_none.mp hfind p.2
        have hmem : p.2 ∈ (st.notifications.map Prod.snd).filter
            (fun n => n.userId == uid && !n.isRead) := by
          rw [List.mem_filter]
          refine ⟨?_, hpred⟩
          exact List.mem_map_of_mem Prod.snd (mapGet_some_mem hget)
        have hidp : p.2.id = p.1 := hid (p.1, p.2) (mapGet_some_mem hget)
        have := hfa hmem
        simp only [beq_iff_eq] at this
        exact this hidp
  · intro k n hkn hne
    rw [hlook k]
    cases hfind : ((st.notifications.map Prod.snd).filter
        (fun n => n.userId == uid && !n.isRead)).find? (fun n2 => n2.id == k) with
    | some n2 =>
        exfalso
        have hmem2 := List.mem_of_find?_eq_some hfind
        have hpred2 := List.find?_some hfind
        simp only [beq_iff_eq] at hpred2
        rw [List.mem_filter] at hmem2
        rcases List.mem_map.mp hmem2.1 with ⟨q, hq, hqn⟩
        have hq1 : q.1 = k := by
          rw [← hpred2, ← hqn]
          exact (hid q hq).symm
        have hgq : mapGet k st.notifications = some n2 := by
          rw [← hqn, ← hq1]
          exact mapGet_of_mem hnodup hq
        rw [hkn] at hgq
        have hn2 : n2 = n := (Option.some.inj hgq).symm
        rw [hn2] at hmem2
        simp only [Bool.and_eq_true, beq_iff_eq] at hmem2
        exact hne hmem2.2.1
    | none => exact hkn
  · intro table uid2
    constructor
    · unfold pgGetUnreadNotificationCount pgMarkAllNotificationsAsRead
      rw [List.length_eq_zero, List.filter_eq_nil_iff]
      intro n hn
      rcases List.mem_map.mp hn with ⟨n0, hn0, hmark⟩
      by_cases hc : (n0.userId == uid2 && !n0.isRead) = true
      · rw [if_pos hc] at hmark
        rw [← hmark]
        simp
      · rw [if_neg hc] at hmark
        rw [← hmark]
        exact fun hp => hc hp
    · intro n hn hne
      unfold pgMarkAllNotificationsAsRead
      have hc : ¬ ((n.userId == uid2 && !n.isRead) = true) := by
        simp only [Bool.and_eq_true, beq_iff_eq]
        intro hp
        exact hne hp.1
      have : (if (n.userId == uid2 && !n.isRead) = true
          then { n with isRead := true } else n) = n := if_neg hc
      rw [← this]
      exact List.mem_map_of_mem _ hn

/-- Witness for C10: a store holding one unread notification for A and
one for B; after marking all of A's as read the unread count of A is 0
and B's entry is untouched. -/
theorem markAllRead_zero_unread_witness :
    (let st : MemStorage := { sampleStore with notifications :=
      [(0, { id := 0, userId := "A", type := "message_received", fromUserId := "B"
             conversationId := none, isRead := false, data := none, createdAt := 0 }),
       (1, { id := 1, userId := "B", type := "profile_view", fromUserId := "A"
             conversationId := none, isRead := false, data := none, createdAt := 1 })] }
     MemStorage.getUnreadNotificationCount
       (MemStorage.markAllNotificationsAsRead st "A") "A" = 0 ∧
     (∀ k n, mapGet k st.notifications = some n → n.userId ≠ "A" →
       mapGet k (MemStorage.markAllNotificationsAsRead st "A").notifications = some n) ∧
     (∀ (table : List Notification) (uid2 : String),
       pgGetUnreadNotificationCount (pgMarkAllNotificationsAsRead table uid2) uid2 = 0 ∧
       ∀ n ∈ table, n.userId ≠ uid2 → n ∈ pgMarkAllNotificationsAsRead table uid2)) :=
  markAllRead_zero_unread
    { sampleStore with notifications :=
      [(0, { id := 0, userId := "A", type := "message_received", fromUserId := "B"
             conversationId := none, isRead := false, data := none, createdAt := 0 }),
       (1, { id := 1, userId := "B", type := "profile_view", fromUserId := "A"
             conversationId := none, isRead := false, data := none, createdAt := 1 })] }
    "A" (by unfold NodupKeys mapKeys; decide) (by decide)

/-- Every `newMessage` frame produced by the `sendMessage` handler
carries a sender that is a `toPublicUser` projection. -/
theorem handleSendMessage_sender_is_public (s : ServerState) (uid : String) (ws : Conn)
    (recv : String) (content imageUrl : Option String) :
    ∀ e ∈ (handleSendMessage s (some uid) ws recv content imageUrl).2,
    ∀ m sender, e.frame = Frame.newMessage m sender →
    ∀ pu, sender = some pu → ∃ u : User, pu = toPublicUser u := by
  unfold handleSendMessage
  cases hconv : MemStorage.getConversation s.store uid recv with
  | some conversation =>
      dsimp only
      simp only [hconv]
      by_cases hfoc : (isFocusedW s.activeChatWindows uid recv
          && isFocusedW s.activeChatWindows recv uid) = true
      · simp only [isFocused_w, isFocused_mk, hfoc, if_true, if_pos]
        intro e he m sender hm pu hpu
        rcases mem_three_append he with hA | hB | hC
        · rcases hrc : mapGet recv s.connectedUsers with _ | rc
          · simp only [hrc] at hA
            exact absurd hA (List.not_mem_nil e)
          · simp only [hrc] at hA
            by_cases hro : (rc.readyState == WS_OPEN) = true
            · rw [if_pos hro] at hA
              rw [List.mem_singleton.mp hA] at hm
              simp only [Frame.newMessage.injEq] at hm
              rw [← hm.2] at hpu
              rcases Option.map_eq_some'.mp hpu with ⟨u, hx, hu⟩
              exact ⟨u, hu.symm⟩
            · rw [if_neg hro] at hA
              exact absurd hA (List.not_mem_nil e)
        · exact absurd hB (List.not_mem_nil e)
        · rw [List.mem_singleton.mp hC] at hm
          simp at hm
      · have hfoc2 : (isFocusedW s.activeChatWindows uid recv
            && isFocusedW s.activeChatWindows recv uid) = false :=
          Bool.not_eq_true _ ▸ (Bool.eq_false_iff.mpr hfoc)
        simp only [isFocused_w, isFocused_mk, hfoc2, Bool.false_eq_true, if_false]
        intro e he m sender hm pu hpu
        rcases mem_three_append he with hA | hB | hC
        · rcases hrc : mapGet recv s.connectedUsers with _ | rc
          · simp only [hrc] at hA
            exact absurd hA (List.not_mem_nil e)
          · simp only [hrc] at hA
            by_cases hro : (rc.readyState == WS_OPEN) = true
            · rw [if_pos hro] at hA
              rw [List.mem_singleton.mp hA] at hm
              simp only [Frame.newMessage.injEq] at hm
              rw [← hm.2] at hpu
              rcases Option.map_eq_some'.mp hpu with ⟨u, hx, hu⟩
              exact ⟨u, hu.symm⟩
            · rw [if_neg hro] at hA
              exact absurd hA (List.not_mem_nil e)
        · simp only [getUser_createNotification, getUser_createMessage,
            getUser_createConversation] at hB
          rcases hgu : MemStorage.getUser s.store uid with _ | su
          all_goals simp only [hgu] at hB
          · exact absurd hB (List.not_mem_nil e)
          · rcases hrc2 : mapGet recv s.connectedUsers with _ | rc2
            all_goals simp only [hrc2] at hB
            · exact absurd hB (List.not_mem_nil e)
            · by_cases hro2 : (rc2.readyState == WS_OPEN) = true
              · rw [if_pos hro2] at hB
                rw [List.mem_singleton.mp hB] at hm
                simp at hm
              · rw [if_neg hro2] at hB
                exact absurd hB (List.not_mem_nil e)
        · rw [List.mem_singleton.mp hC] at hm
          simp at hm
  | none =>
      dsimp only
      simp only [hconv]
      by_cases hfoc : (isFocusedW s.activeChatWindows uid recv
          && isFocusedW s.activeChatWindows recv uid) = true
      · simp only [isFocused_w, isFocused_mk, hfoc, if_true, if_pos]
        intro e he m sender hm pu hpu
        rcases mem_three_append he with hA | hB | hC
        · rcases hrc : mapGet recv s.connectedUsers with _ | rc
          · simp only [hrc] at hA
            exact absurd hA (List.not_mem_nil e)
          · simp only [hrc] at hA
            by_cases hro : (rc.readyState == WS_OPEN) = true
            · rw [if_pos hro] at hA
              rw [List.mem_singleton.mp hA] at hm
              simp only [Frame.newMessage.injEq] at hm
              rw [← hm.2] at hpu
              rcases Option.map_eq_some'.mp hpu with ⟨u, hx, hu⟩
              exact ⟨u, hu.symm⟩
            · rw [if_neg hro] at hA
              exact absurd hA (List.not_mem_nil e)
        · exact absurd hB (List.not_mem_nil e)
        · rw [List.mem_singleton.mp hC] at hm
          simp at hm
      · have hfoc2 : (isFocusedW s.activeChatWindows uid recv
            && isFocusedW s.activeChatWindows recv uid) = false :=
          Bool.not_eq_true _ ▸ (Bool.eq_false_iff.mpr hfoc)
        simp only [isFocused_w, isFocused_mk, hfoc2, Bool.false_eq_true, if_false]
        intro e he m sender hm pu hpu
        rcases mem_three_append he with hA | hB | hC
        · rcases hrc : mapGet recv s.connectedUsers with _ | rc
          · simp only [hrc] at hA
            exact absurd hA (List.not_mem_nil e)
          · simp only [hrc] at hA
            by_cases hro : (rc.readyState == WS_OPEN) = true
            · rw [if_pos hro] at hA
              rw [List.mem_singleton.mp hA] at hm
              simp only [Frame.newMessage.injEq] at hm
              rw [← hm.2] at hpu
              rcases Option.map_eq_some'.mp hpu with ⟨u, hx, hu⟩
              exact ⟨u, hu.symm⟩
            · rw [if_neg hro] at hA
              exact absurd hA (List.not_mem_nil e)
        · simp only [getUser_createNotification, getUser_createMessage,
            getUser_createConversation] at hB
          rcases hgu : MemStorage.getUser s.store uid with _ | su
          all_goals simp only [hgu] at hB
          · exact absurd hB (List.not_mem_nil e)
          · rcases hrc2 : mapGet recv s.connectedUsers with _ | rc2
            all_goals simp only [hrc2] at hB
            · exact absurd hB (List.not_mem_nil e)
            · by_cases hro2 : (rc2.readyState == WS_OPEN) = true
              · rw [if_pos hro2] at hB
                rw [List.mem_singleton.mp hB] at hm
                simp at hm
              · rw [if_neg hro2] at hB
                exact absurd hB (List.not_mem_nil e)
        · rw [List.mem_singleton.mp hC] at hm
          simp at hm

/-- Every element surviving the discovery filters comes from the input
list. -/
theorem applyDiscoveryFilters_subset (selfId : String) (g loc : Option String)
    (amin amax : Option Int) (l : List User) :
    ∀ u ∈ applyDiscoveryFilters selfId g loc amin amax l, u ∈ l := by
  intro u hu
  unfold applyDiscoveryFilters at hu
  dsimp only at hu
  repeat' (split at hu)
  all_goals (repeat (first
    | exact hu
    | replace hu := List.mem_of_mem_filter hu))

/-- Overwriting exactly the private fields of a user record: password,
email and the four saved filter preferences. -/
def setPrivateFields (u : User) (pw em : String) (fg fl : Option String)
    (fmi fma : Option Nat) : User :=
  { u with
    password := pw
    email := em
    filterGender := fg
    filterLocation := fl
    filterAgeMin := fmi
    filterAgeMax := fma }

/-- Claim C8: every user object this module sends to a client is the
`toPublicUser` projection of a stored user, and the projection carries
no password, no email and no filter-preference fields (it is invariant
under changing them): the discovery routes, the profile route, the
profile patch, the notifications route, the conversations route and the
three photo routes (profile-picture upload, gallery upload, gallery
delete) all return `toPublicUser` images, and the sender attached to a
`newMessage` frame is a `toPublicUser` image. -/
theorem public_user_projection_everywhere :
    (∀ (u : User) (pw em : String) (fg fl : Option String) (fmi fma : Option Nat),
      toPublicUser (setPrivateFields u pw em fg fl fmi fma) = toPublicUser u) ∧
    (∀ (st : MemStorage) (selfId : String) (g loc : Option String)
        (amin amax : Option Int) (pu : PublicUser),
      pu ∈ apiUsers st selfId g loc amin amax →
      ∃ u, u ∈ MemStorage.getAllUsers st ∧ pu = toPublicUser u) ∧
    (∀ (st : MemStorage) (selfId : String) (g loc : Option String)
        (amin amax : Option Int) (pu : PublicUser),
      pu ∈ apiUsersOnline st selfId g loc amin amax →
      ∃ u, u ∈ MemStorage.getAllUsers st ∧ pu = toPublicUser u) ∧
    (∀ (s : ServerState) (selfId target : String) (pu : PublicUser),
      (apiUserProfile s selfId target).2.1 = some pu →
      ∃ u, MemStorage.getUser s.store target = some u ∧ pu = toPublicUser u) ∧
    (∀ (st : MemStorage) (selfId : String) (updates : User → User) (pu : PublicUser),
      (apiProfilePatch st selfId updates).2 = some pu → ∃ u, pu = toPublicUser u) ∧
    (∀ (st : MemStorage) (selfId : String) (p : Notification × Option PublicUser),
      p ∈ apiNotifications st selfId → ∀ pu, p.2 = some pu →
      ∃ u, u ∈ MemStorage.getAllUsers st ∧ pu = toPublicUser u) ∧
    (∀ (st : MemStorage) (selfId : String)
        (c : Conversation × Option PublicUser × Option Message),
      c ∈ apiConversations st selfId → ∀ pu, c.2.1 = some pu →
      ∃ u, u ∈ MemStorage.getAllUsers st ∧ pu = toPublicUser u) ∧
    (∀ (s : ServerState) (uid : String) (ws : Conn) (recv : String)
        (content imageUrl : Option String),
      ∀ e ∈ (handleSendMessage s (some uid) ws recv content imageUrl).2,
      ∀ m sender, e.frame = Frame.newMessage m sender →
      ∀ pu, sender = some pu → ∃ u : User, pu = toPublicUser u) ∧
    (∀ (st : MemStorage) (selfId filename : String) (pu : PublicUser),
      (apiUploadProfile st selfId filename).2.2 = some pu → ∃ u, pu = toPublicUser u) ∧
    (∀ (st : MemStorage) (selfId : String) (filenames : List String)
        (res : List String × List String × Option PublicUser),
      (apiUploadPhotos st selfId filenames).2 = some res →
      ∀ pu, res.2.2 = some pu → ∃ u, pu = toPublicUser u) ∧
    (∀ (st : MemStorage) (selfId photoUrl : String) (res : List String × Option PublicUser),
      (apiDeletePhoto st selfId photoUrl).2 = some res →
      ∀ pu, res.2 = some pu → ∃ u, pu = toPublicUser u) := by
  refine ⟨?_, ?_, ?_, ?_, ?_, ?_, ?_, ?_, ?_, ?_, ?_⟩
  · intro u pw em fg fl fmi fma
    rfl
  · intro st selfId g loc amin amax pu hpu
    rcases List.mem_map.mp hpu with ⟨u, hu, hup⟩
    exact ⟨u, applyDiscoveryFilters_subset selfId g loc amin amax _ u hu, hup.symm⟩
  · intro st selfId g loc amin amax pu hpu
    rcases List.mem_map.mp hpu with ⟨u, hu, hup⟩
    refine ⟨u, ?_, hup.symm⟩
    have hon := applyDiscoveryFilters_subset selfId g loc amin amax _ u hu
    exact List.mem_of_mem_filter hon
  · intro s selfId target pu hpu
    unfold apiUserProfile at hpu
    by_cases hself : target = selfId
    · rw [if_pos hself] at hpu
      simp at hpu
    · rw [if_neg hself] at hpu
      cases hgu : MemStorage.getUser s.store target with
      | none =>
          simp only [hgu] at hpu
          simp at hpu
      | some user =>
          simp only [hgu] at hpu
          exact ⟨user, rfl, (Option.some.inj hpu).symm⟩
  · intro st selfId updates pu hpu
    unfold apiProfilePatch at hpu
    rcases Option.map_eq_some'.mp hpu with ⟨u, hx, hu⟩
    exact ⟨u, hu.symm⟩
  · intro st selfId p hp pu hpu
    unfold apiNotifications at hp
    rcases List.mem_map.mp hp with ⟨q, hq, hqp⟩
    unfold MemStorage.getUserNotifications at hq
    rcases List.mem_map.mp hq with ⟨n, hn, hnq⟩
    rw [← hqp] at hpu
    dsimp only at hpu
    rw [← hnq] at hpu
    dsimp only at hpu
    rcases Option.map_eq_some'.mp hpu with ⟨u, hx, hu⟩
    refine ⟨u, ?_, hu.symm⟩
    exact List.mem_map_of_mem Prod.snd (mapGet_some_mem hx)
  · intro st selfId c hc pu hpu
    unfold apiConversations at hc
    dsimp only at hc
    rcases List.mem_map.mp (List.mem_mergeSort.mp hc) with ⟨conv, hconv2, hcc⟩
    rw [← hcc] at hpu
    dsimp only at hpu
    rcases Option.map_eq_some'.mp hpu with ⟨u, hx, hu⟩
    refine ⟨u, ?_, hu.symm⟩
    exact List.mem_map_of_mem Prod.snd (mapGet_some_mem hx)
  · exact handleSendMessage_sender_is_public
  · intro st selfId filename pu hpu
    unfold apiUploadProfile at hpu
    rcases Option.map_eq_some'.mp hpu with ⟨u, hx, hu⟩
    exact ⟨u, hu.symm⟩
  · intro st selfId filenames res hres pu hpu
    unfold apiUploadPhotos at hres
    dsimp only at hres
    repeat' (split at hres)
    all_goals first
      | (rw [← Option.some.inj hres] at hpu
         dsimp only at hpu
         rcases Option.map_eq_some'.mp hpu with ⟨u, hx, hu⟩
         exact ⟨u, hu.symm⟩)
      | simp at hres
  · intro st selfId photoUrl res hres pu hpu
    unfold apiDeletePhoto at hres
    dsimp only at hres
    repeat' (split at hres)
    all_goals first
      | (rw [← Option.some.inj hres] at hpu
         dsimp only at hpu
         rcases Option.map_eq_some'.mp hpu with ⟨u, hx, hu⟩
         exact ⟨u, hu.symm⟩)
      | simp at hres


/-- Witness for C8: the projection of user A ignores changed private
fields, and the discovery route output for requester B is a
`toPublicUser` image of a stored user. -/
theorem public_user_projection_witness :
    (toPublicUser (setPrivateFields userA "pw2" "e2@x" (some "g") none (some 1) none)
      = toPublicUser userA) ∧
    (∃ u, u ∈ MemStorage.getAllUsers sampleStore ∧ toPublicUser userA = toPublicUser u) :=
  ⟨public_user_projection_everywhere.1 userA "pw2" "e2@x" (some "g") none (some 1) none,
   public_user_projection_everywhere.2.1 sampleStore "B" none none none none
     (toPublicUser userA) (by decide)⟩

end SpreadLov
